import Mathlib

/-!
Verification of the `coc` command-output curator.

A shallow embedding, in Lean 4, of the core of the `coc` command-output
curator (Go): the byte/char-level string helpers shared by the filter
strategies, the ANSI scrubber, the eleven reduction strategies of the
default registry, the registry lookup, the log-path slug derivation, the
PreToolUse hook decision, and an abstract-state model of the execution
supervisor `executor.Run`.

Strings are modelled as `List Char` (`Str`).  Go's `regexp` uses are
compiled by hand into deterministic scanners (every regex in the source
is deterministic: its character classes make alternation and greedy
repetition unambiguous).  Machine integers stay `Nat`/`Int` — none of
the arithmetic here can overflow in Go's `int`.
-/

set_option maxHeartbeats 1000000
set_option maxRecDepth 40000

namespace Coc

/-- Strings as lists of characters. -/
abbrev Str := List Char

/-- Embeds `strings.HasPrefix s pat`. -/
def startsWithList : Str → Str → Bool
  | _, [] => true
  | [], _ :: _ => false
  | c :: s, p :: ps => c == p && startsWithList s ps

/-- Embeds `strings.Contains s pat` (contiguous-substring test). -/
def containsSub : Str → Str → Bool
  | s, pat =>
    if startsWithList s pat then true
    else
      match s with
      | [] => false
      | _ :: t => containsSub t pat

/-- Embeds `strings.HasSuffix s pat`. -/
def endsWithList (s pat : Str) : Bool :=
  startsWithList s.reverse pat.reverse

/-- Go's `unicode.IsSpace` restricted to the Latin-1 range (the only
characters the proofs here depend on; higher code points do not occur in
any literal this development reasons about). -/
def goIsSpace (c : Char) : Bool :=
  c == ' ' || c == '\t' || c == '\n' || c == Char.ofNat 0x0b ||
    c == Char.ofNat 0x0c || c == '\r' || c == Char.ofNat 0x85 || c == Char.ofNat 0xa0

/-- Embeds `strings.TrimSpace`. -/
def trimSpace (s : Str) : Str :=
  ((s.dropWhile goIsSpace).reverse.dropWhile goIsSpace).reverse

/-- Embeds `strings.Split s "\n"`. -/
def splitLines : Str → List Str
  | [] => [[]]
  | c :: t =>
    if c == '\n' then [] :: splitLines t
    else
      match splitLines t with
      | h :: rest => (c :: h) :: rest
      | [] => [[c]]

/-- Embeds `strings.Join lines "\n"`. -/
def joinLines : List Str → Str
  | [] => []
  | [l] => l
  | l :: rest => l ++ '\n' :: joinLines rest

/-- Embeds `filter.endsWithNewline`: whether `s` ends with a newline character. -/
def endsWithNewline (s : Str) : Bool :=
  decide (s ≠ []) && (s.getLast? == some '\n')

/-- Embeds `filter.ensureTrailingNewline`: append a newline if the original had
one and the result does not. -/
def ensureTrailingNewline (result : Str) (hadTrailing : Bool) : Str :=
  if hadTrailing && !endsWithNewline result then result ++ ['\n'] else result

/-- Embeds `strings.Replace s pat sub 1`: replace the first occurrence only. -/
def replaceOnce (s pat sub : Str) : Str :=
  if startsWithList s pat then sub ++ s.drop pat.length
  else
    match s with
    | [] => []
    | c :: t => c :: replaceOnce t pat sub

/-- Decimal rendering of a natural number (Go's `%d` for non-negative values). -/
def natStr (n : Nat) : Str := (toString n).data

/-- Decimal rendering of a Go `int` (`%d`). -/
def intStr (n : Int) : Str := (toString n).data

/-! ## ANSI scrubber (`filter.StripANSIString`)

The source strips with the regex
`\x1b\[[0-9;:?]*[a-zA-Z]|\x1b\][^\x07\x1b]*(?:\x07|\x1b\\)|\x1b[()][AB012]|\x1b[=>]`
via `ReplaceAllString(s, "")`.  Every alternative starts with ESC and the
alternatives are distinguished by the character after the ESC, and inside
each alternative the greedy repetitions range over character classes
disjoint from their terminators, so `ReplaceAll`'s leftmost non-overlapping
matching is computed by the deterministic scanner below. -/

/-- ESC, `\x1b`. -/
def escChar : Char := Char.ofNat 0x1b

/-- BEL, `\x07`. -/
def belChar : Char := Char.ofNat 0x07

/-- CSI parameter characters `[0-9;:?]`. -/
def isCsiParam (c : Char) : Bool :=
  ('0' ≤ c && c ≤ '9') || c == ';' || c == ':' || c == '?'

/-- ASCII letters `[a-zA-Z]`. -/
def isAsciiLetter (c : Char) : Bool :=
  ('a' ≤ c && c ≤ 'z') || ('A' ≤ c && c ≤ 'Z')

/-- Attempt to match one escape sequence at the character *after* an ESC;
returns the number of characters consumed after the ESC. -/
def matchEsc : Str → Option Nat
  | '[' :: t =>
    -- CSI: `\[[0-9;:?]*[a-zA-Z]`
    let k := (t.takeWhile isCsiParam).length
    match (t.drop k).head? with
    | some ch => if isAsciiLetter ch then some (1 + k + 1) else none
    | none => none
  | ']' :: t =>
    -- OSC: `\][^\x07\x1b]*(?:\x07|\x1b\\)`
    let k := (t.takeWhile (fun c => !(c == belChar) && !(c == escChar))).length
    match (t.drop k).head? with
    | some ch =>
      if ch == belChar then some (1 + k + 1)
      else -- ch is ESC: terminator must be `\x1b\\`
        match (t.drop k).tail.head? with
        | some c2 => if c2 == '\\' then some (1 + k + 2) else none
        | none => none
    | none => none
  | '(' :: t =>
    match t.head? with
    | some ch => if ch ∈ ['A', 'B', '0', '1', '2'] then some 2 else none
    | none => none
  | ')' :: t =>
    match t.head? with
    | some ch => if ch ∈ ['A', 'B', '0', '1', '2'] then some 2 else none
    | none => none
  | '=' :: _ => some 1
  | '>' :: _ => some 1
  | _ => none

/-- Scanner loop for `StripANSIString`.  The `fuel` argument only makes the
recursion structural: every step consumes at least one character, so with
`fuel = s.length` the zero-fuel branch is unreachable (established by
`stripANSIFuel_congr` below). -/
def stripANSIFuel : Nat → Str → Str
  | _, [] => []
  | 0, s => s
  | fuel + 1, c :: rest =>
    if c == escChar then
      match matchEsc rest with
      | some n => stripANSIFuel fuel (rest.drop n)
      | none => c :: stripANSIFuel fuel rest
    else c :: stripANSIFuel fuel rest

/-- Embeds `filter.StripANSIString`. -/
def stripANSI (s : Str) : Str := stripANSIFuel s.length s

/-! ## Filter results and subcommand detection (`internal/filter`) -/

/-- Embeds `filter.Result`: the outcome of filtering. -/
structure FResult where
  Filtered : Str
  WasReduced : Bool
deriving DecidableEq, Repr

/-- Shared loop of `filter.isSubcommand`; the `skip` flag records that the
previous argument was a value-consuming flag. -/
def isSubcommandAux : Bool → List Str → Str → List Str → Bool
  | _, [], _, _ => false
  | true, _ :: rest, sub, vf => isSubcommandAux false rest sub vf
  | false, a :: rest, sub, vf =>
    if vf.contains a then isSubcommandAux true rest sub vf
    else if startsWithList a ['-'] then isSubcommandAux false rest sub vf
    else a == sub

/-- Embeds `filter.isSubcommand`: does the first non-flag argument equal `sub`,
skipping value-consuming flags and their values? -/
def isSubcommand (args : List Str) (sub : Str) (valueFlags : List Str) : Bool :=
  isSubcommandAux false args sub valueFlags

/-- Embeds `filter.gitValueFlags`. -/
def gitValueFlags : List Str :=
  ["-c".data, "-C".data, "--git-dir".data, "--work-tree".data]

/-! ## GitStatusStrategy -/

/-- Embeds `GitStatusStrategy.CanHandle`. -/
def gitStatusCanHandle (command : Str) (args : List Str) : Bool :=
  command == "git".data && isSubcommand args "status".data gitValueFlags

/-- The clean-tree sentinel checked by `GitStatusStrategy.Filter`. -/
def cleanTreeLit : Str := "nothing to commit, working tree clean".data

/-- Embeds `statusReplacements` (verbose marker → short form, first match wins). -/
def statusReplacements : List (Str × Str) :=
  [("modified:".data, "M".data), ("new file:".data, "A".data),
   ("deleted:".data, "D".data), ("renamed:".data, "R".data),
   ("copied:".data, "C".data), ("typechange:".data, "T".data)]

/-- The per-line marker conversion of `GitStatusStrategy.Filter` (loop over
`statusReplacements` with `strings.Replace(..., 1)` and `break`). -/
def convertStatus (line : Str) : Str :=
  match statusReplacements.find? (fun r => containsSub line r.1) with
  | some r => replaceOnce line r.1 r.2
  | none => line

/-- The hint-line prefix dropped by `GitStatusStrategy.Filter`. -/
def useGitLit : Str := "  (use \"git".data

/-- The main loop of `GitStatusStrategy.Filter`: processes the lines with
the current section name as state, returning the kept lines and the
(staged, unstaged, untracked) counters.  The Go loop accumulates
imperatively; this recursion builds the same list and the same sums. -/
def gitStatusScan : List Str → Str → List Str × Nat × Nat × Nat
  | [], _ => ([], 0, 0, 0)
  | line :: rest, sect =>
    if startsWithList line "On branch ".data
        || startsWithList line "HEAD detached at ".data
        || startsWithList line "HEAD detached from ".data then
      let r := gitStatusScan rest sect
      (line :: r.1, r.2)
    else if startsWithList line "Changes to be committed:".data then
      let r := gitStatusScan rest "staged".data
      (line :: r.1, r.2)
    else if startsWithList line "Changes not staged for commit:".data then
      let r := gitStatusScan rest "unstaged".data
      (line :: r.1, r.2)
    else if startsWithList line "Untracked files:".data then
      let r := gitStatusScan rest "untracked".data
      (line :: r.1, r.2)
    else if startsWithList line useGitLit then
      gitStatusScan rest sect
    else if startsWithList line ['\t'] then
      let r := gitStatusScan rest sect
      (convertStatus line :: r.1,
        r.2.1 + (if sect == "staged".data then 1 else 0),
        r.2.2.1 + (if sect == "unstaged".data then 1 else 0),
        r.2.2.2 + (if sect == "untracked".data then 1 else 0))
    else if trimSpace line == [] then
      let r := gitStatusScan rest sect
      (line :: r.1, r.2)
    else gitStatusScan rest sect

/-- The summary line `"%d staged, %d unstaged, %d untracked"`. -/
def gitStatusSummary (staged unstaged untracked : Nat) : Str :=
  natStr staged ++ " staged, ".data ++ natStr unstaged ++ " unstaged, ".data
    ++ natStr untracked ++ " untracked".data

/-- Embeds `GitStatusStrategy.Filter` (the non-panicking body; the `recover`
guard is modelled separately for the panic-safety claim). -/
def gitStatusFilter (raw : Str) (_command : Str) (_args : List Str)
    (_exitCode : Int) : FResult :=
  let cleaned := stripANSI raw
  let hadTrailing := endsWithNewline cleaned
  if containsSub cleaned cleanTreeLit then ⟨cleaned, false⟩
  else
    let lines := splitLines cleaned
    if lines.length < 5 then ⟨cleaned, false⟩
    else
      let r := gitStatusScan lines []
      let out := r.1 ++ [gitStatusSummary r.2.1 r.2.2.1 r.2.2.2]
      ⟨ensureTrailingNewline (joinLines out) hadTrailing, true⟩

/-! ## Character classes for the hand-compiled regexes -/

/-- Regex `\d`. -/
def isDigitCh (c : Char) : Bool := '0' ≤ c && c ≤ '9'

/-- Lowercase hex `[0-9a-f]`. -/
def isHexLower (c : Char) : Bool := ('0' ≤ c && c ≤ '9') || ('a' ≤ c && c ≤ 'f')

/-- Regex `\s` (RE2's Perl class `[\t\n\f\r ]`). -/
def isRegexSpace (c : Char) : Bool :=
  c == ' ' || c == '\t' || c == '\n' || c == Char.ofNat 0x0c || c == '\r'

/-- Regex `\S`. -/
def isNonSpaceRegex (c : Char) : Bool := !isRegexSpace c

/-- Regex `\w` (word characters, for `\b` boundaries). -/
def isWordChar (c : Char) : Bool :=
  ('a' ≤ c && c ≤ 'z') || ('A' ≤ c && c ≤ 'Z') || ('0' ≤ c && c ≤ '9') || c == '_'

/-- Whether an optional character is a word character (absence = boundary). -/
def isWordCharOpt : Option Char → Bool
  | some c => isWordChar c
  | none => false

/-- ASCII lowercasing (for `(?i)` matching). -/
def lowerAscii (c : Char) : Char :=
  if 'A' ≤ c && c ≤ 'Z' then Char.ofNat (c.toNat + 32) else c

/-- Case-insensitive prefix test (`pat` given in lowercase). -/
def ciStarts : Str → Str → Bool
  | _, [] => true
  | [], _ :: _ => false
  | c :: s, p :: ps => lowerAscii c == p && ciStarts s ps

/-- Scanner for `(?i)\bPAT\b` (pattern entirely of letters, given lowercase);
`prevIsWord` tracks whether the previous character was a word character. -/
def ciWordAux (pat : Str) : Bool → Str → Bool
  | _, [] => false
  | prevIsWord, c :: t =>
    (!prevIsWord && ciStarts (c :: t) pat
        && !isWordCharOpt ((c :: t).drop pat.length).head?)
      || ciWordAux pat (isWordChar c) t

/-- Embeds `regexp.MatchString` for `(?i)\bPAT\b`. -/
def ciWord (pat : Str) (s : Str) : Bool := ciWordAux pat false s

/-- Decimal digits to `Nat` (the manual loop in `countCargoTestsFromResult`). -/
def digitsToNat (ds : Str) : Nat :=
  ds.foldl (fun n c => n * 10 + (c.toNat - '0'.toNat)) 0

/-- Embeds `strings.Index s pat` as an option. -/
def indexOfSubAux : Nat → Str → Str → Option Nat
  | i, s, pat =>
    if startsWithList s pat then some i
    else
      match s with
      | [] => none
      | _ :: t => indexOfSubAux (i + 1) t pat

/-- Embeds `strings.Index`: byte index of the first occurrence of `pat` in `s`
(all literals searched for in this development are ASCII, so byte and
character indices agree). -/
def indexOfSub (s pat : Str) : Option Nat := indexOfSubAux 0 s pat

/-- In-order update at an index (models a Go pointer into a slice element). -/
def modifyAt {α : Type} : List α → Nat → (α → α) → List α
  | [], _, _ => []
  | a :: t, 0, f => f a :: t
  | a :: t, n + 1, f => a :: modifyAt t n f

/-! ## GitDiffStrategy -/

/-- Embeds `GitDiffStrategy.CanHandle`. -/
def gitDiffCanHandle (command : Str) (args : List Str) : Bool :=
  command == "git".data && isSubcommand args "diff".data gitValueFlags

/-- Embeds `indexLineRe`: `^index [0-9a-f]+\.\.[0-9a-f]+`. -/
def isIndexLine (l : Str) : Bool :=
  startsWithList l "index ".data &&
    (let t := l.drop 6
     let h1 := (t.takeWhile isHexLower).length
     decide (1 ≤ h1) && startsWithList (t.drop h1) "..".data &&
       decide (1 ≤ ((t.drop (h1 + 2)).takeWhile isHexLower).length))

/-- Embeds `binaryFileRe`: `^Binary files .* differ$`. -/
def isBinaryFilesLine (l : Str) : Bool :=
  startsWithList l "Binary files ".data && endsWithList (l.drop 13) " differ".data

/-- Embeds `binaryFileNameRe`: `^Binary files (?:a/\S+ and )?b/(\S+) differ$`,
returning the capture.  The optional group and `\S+` are deterministic
(`\S` excludes the space that must follow), so a straight-line parse
computes the regex's submatch. -/
def binaryNameSub (l : Str) : Option Str :=
  if startsWithList l "Binary files ".data then
    let t := l.drop 13
    let afterOpt :=
      if startsWithList t "a/".data then
        let w := (t.drop 2).takeWhile isNonSpaceRegex
        if decide (1 ≤ w.length)
            && startsWithList ((t.drop 2).drop w.length) " and ".data then
          (t.drop 2).drop (w.length + 5)
        else t
      else t
    if startsWithList afterOpt "b/".data then
      let w := (afterOpt.drop 2).takeWhile isNonSpaceRegex
      if decide (1 ≤ w.length) && (afterOpt.drop 2).drop w.length == " differ".data then
        some w
      else none
    else none
  else none

/-- Embeds `binaryFileNameFallbackRe`: `^Binary files a/(\S+) and /dev/null differ$`. -/
def binaryNameFallbackSub (l : Str) : Option Str :=
  if startsWithList l "Binary files a/".data then
    let w := (l.drop 15).takeWhile isNonSpaceRegex
    if decide (1 ≤ w.length)
        && (l.drop 15).drop w.length == " and /dev/null differ".data then
      some w
    else none
  else none

/-- One per-file record of `GitDiffStrategy.Filter`:
name, insertions, deletions, binary. -/
structure DiffFileStat where
  name : Str
  insertions : Nat
  deletions : Nat
  binary : Bool
deriving DecidableEq, Repr

/-- Loop state of `GitDiffStrategy.Filter` (the Go `currentFile` pointer
into the `fileStats` slice is modelled as an index). -/
structure DiffState where
  fileStats : List DiffFileStat
  currentFile : Option Nat
  kept : List Str
  lastMinusFile : Str
deriving Repr

/-- One iteration of the `GitDiffStrategy.Filter` line loop. -/
def gitDiffStep (st : DiffState) (line : Str) : DiffState :=
  if startsWithList line "diff --git ".data then st
  else if isIndexLine line then st
  else if isBinaryFilesLine line then
    let name :=
      match binaryNameSub line with
      | some m => m
      | none =>
        match binaryNameFallbackSub line with
        | some m => m
        | none => []
    if name != [] then
      { st with fileStats := st.fileStats ++ [⟨name, 0, 0, true⟩],
                kept := st.kept ++ [line] }
    else { st with kept := st.kept ++ [line] }
  else if startsWithList line "--- a/".data then
    { st with lastMinusFile := line.drop 6, kept := st.kept ++ [line] }
  else if startsWithList line "+++ b/".data then
    { st with fileStats := st.fileStats ++ [⟨line.drop 6, 0, 0, false⟩],
              currentFile := some st.fileStats.length,
              kept := st.kept ++ [line] }
  else if startsWithList line "+++ ".data then
    if st.lastMinusFile != [] then
      { st with fileStats := st.fileStats ++ [⟨st.lastMinusFile, 0, 0, false⟩],
                currentFile := some st.fileStats.length,
                kept := st.kept ++ [line] }
    else { st with kept := st.kept ++ [line] }
  else if startsWithList line "--- ".data then
    { st with lastMinusFile := [], kept := st.kept ++ [line] }
  else if startsWithList line "@@ ".data then
    { st with kept := st.kept ++ [line] }
  else if startsWithList line "+".data then
    let stats :=
      match st.currentFile with
      | some i => modifyAt st.fileStats i (fun fs => { fs with insertions := fs.insertions + 1 })
      | none => st.fileStats
    { st with fileStats := stats, kept := st.kept ++ [line] }
  else if startsWithList line "-".data then
    let stats :=
      match st.currentFile with
      | some i => modifyAt st.fileStats i (fun fs => { fs with deletions := fs.deletions + 1 })
      | none => st.fileStats
    { st with fileStats := stats, kept := st.kept ++ [line] }
  else { st with kept := st.kept ++ [line] }

/-- The `Files changed:` header block of `GitDiffStrategy.Filter`. -/
def gitDiffHeader (stats : List DiffFileStat) : List Str :=
  "Files changed:".data ::
    stats.map (fun fs =>
      if fs.binary then "  ".data ++ fs.name ++ " (binary)".data
      else "  ".data ++ fs.name ++ " (+".data ++ natStr fs.insertions
        ++ " -".data ++ natStr fs.deletions ++ ")".data)
    ++ [[]]

/-- Embeds `GitDiffStrategy.Filter` (non-panicking body). -/
def gitDiffFilter (raw : Str) (_command : Str) (_args : List Str)
    (_exitCode : Int) : FResult :=
  let cleaned := stripANSI raw
  let hadTrailing := endsWithNewline cleaned
  let lines := splitLines cleaned
  if lines.length < 20 then ⟨cleaned, false⟩
  else
    let st := lines.foldl gitDiffStep ⟨[], none, [], []⟩
    let all := gitDiffHeader st.fileStats ++ st.kept
    ⟨ensureTrailingNewline (joinLines all) hadTrailing, true⟩

/-! ## GitLogStrategy -/

/-- Embeds `GitLogStrategy.CanHandle`. -/
def gitLogCanHandle (command : Str) (args : List Str) : Bool :=
  command == "git".data && isSubcommand args "log".data gitValueFlags

/-- Embeds `commitHashRe`: `^commit ([0-9a-f]{40})`, returning the capture. -/
def commitHashSub (l : Str) : Option Str :=
  if startsWithList l "commit ".data then
    let t := l.drop 7
    if decide (40 ≤ t.length) && (t.take 40).all isHexLower then some (t.take 40)
    else none
  else none

/-- One parsed commit of `GitLogStrategy.Filter`. -/
structure CommitInfo where
  shortHash : Str
  author : Str
  date : Str
  message : Str
deriving DecidableEq, Repr

/-- One iteration of the `GitLogStrategy.Filter` parsing loop over
`(commits, current)`. -/
def gitLogStep (st : List CommitInfo × Option CommitInfo) (line : Str) :
    List CommitInfo × Option CommitInfo :=
  match commitHashSub line with
  | some h =>
    (match st.2 with
     | some cur => (st.1 ++ [cur], some ⟨h.take 7, [], [], []⟩)
     | none => (st.1, some ⟨h.take 7, [], [], []⟩))
  | none =>
    match st.2 with
    | none => st
    | some cur =>
      if startsWithList line "Author:".data then
        let authorField := trimSpace (line.drop 7)
        let authorField :=
          match indexOfSub authorField " <".data with
          | some idx => authorField.take idx
          | none => authorField
        (st.1, some { cur with author := authorField })
      else if startsWithList line "Date:".data then
        (st.1, some { cur with date := trimSpace (line.drop 5) })
      else
        let trimmed := trimSpace line
        if trimmed != [] && cur.message == [] then
          (st.1, some { cur with message := trimmed })
        else st

/-- Embeds `GitLogStrategy.Filter` (non-panicking body). -/
def gitLogFilter (raw : Str) (_command : Str) (_args : List Str)
    (_exitCode : Int) : FResult :=
  let cleaned := stripANSI raw
  let hadTrailing := endsWithNewline cleaned
  let lines := splitLines cleaned
  if !lines.any (fun l => (commitHashSub l).isSome) then ⟨cleaned, false⟩
  else
    let st := lines.foldl gitLogStep ([], none)
    let commits :=
      match st.2 with
      | some cur => st.1 ++ [cur]
      | none => st.1
    if commits.length ≤ 5 then ⟨cleaned, false⟩
    else
      let out := commits.map (fun c =>
        c.shortHash ++ [' '] ++ c.date ++ [' '] ++ c.author ++ ": ".data ++ c.message)
      ⟨ensureTrailingNewline (joinLines out) hadTrailing, true⟩

/-! ## GoTestStrategy and GoBuildStrategy (`go_cmd.go`) -/

/-- Embeds `goValueFlags`. -/
def goValueFlags : List Str := ["-C".data]

/-- Embeds `GoTestStrategy.CanHandle`. -/
def goTestCanHandle (command : Str) (args : List Str) : Bool :=
  command == "go".data && isSubcommand args "test".data goValueFlags

/-- Embeds `goTestRunRe`: `^=== RUN\s+(\S+)`, returning the capture. -/
def goTestRunSub (l : Str) : Option Str :=
  if startsWithList l "=== RUN".data then
    let t := l.drop 7
    let sp := (t.takeWhile isRegexSpace).length
    if decide (1 ≤ sp) then
      let w := (t.drop sp).takeWhile isNonSpaceRegex
      if decide (1 ≤ w.length) then some w else none
    else none
  else none

/-- Embeds `^--- PASS:\s` / `^--- FAIL:\s` / `^=== PAUSE\s` / `^=== CONT\s`:
prefix plus one whitespace character. -/
def prefixThenSpace (pre : Str) (l : Str) : Bool :=
  startsWithList l pre &&
    (match (l.drop pre.length).head? with
     | some c => isRegexSpace c
     | none => false)

/-- Package-summary line test of `GoTestStrategy.Filter`
(`ok  \t`, `FAIL\t`, `?   \t` prefixes). -/
def isGoPkgSummary (l : Str) : Bool :=
  startsWithList l "ok  \t".data || startsWithList l "FAIL\t".data
    || startsWithList l "?   \t".data

/-- One test block of `GoTestStrategy.Filter`. -/
structure GoTestBlock where
  name : Str
  lines : List Str
  passed : Bool
  failed : Bool
deriving Repr

/-- Loop state of `GoTestStrategy.Filter`. -/
structure GoTestState where
  summaryLines : List Str
  failBlocks : List GoTestBlock
  current : Option GoTestBlock
  orphaned : List Str
deriving Repr

/-- One iteration of the `GoTestStrategy.Filter` parsing loop. -/
def goTestStep (st : GoTestState) (line : Str) : GoTestState :=
  if isGoPkgSummary line then
    { st with summaryLines := st.summaryLines ++ [line] }
  else if line == "FAIL".data then
    { st with summaryLines := st.summaryLines ++ [line] }
  else
    match goTestRunSub line with
    | some name =>
      let st :=
        match st.current with
        | some cur =>
          if cur.failed then { st with failBlocks := st.failBlocks ++ [cur] } else st
        | none => st
      { st with current := some ⟨name, [line], false, false⟩ }
    | none =>
      if prefixThenSpace "=== PAUSE".data line || prefixThenSpace "=== CONT".data line then
        st
      else if prefixThenSpace "--- PASS:".data line then
        match st.current with
        | some _ => { st with current := none }
        | none => st
      else if prefixThenSpace "--- FAIL:".data line then
        match st.current with
        | some cur =>
          { st with
            failBlocks := st.failBlocks ++ [{ cur with failed := true, lines := cur.lines ++ [line] }],
            current := none }
        | none => { st with orphaned := st.orphaned ++ [line] }
      else
        match st.current with
        | some cur => { st with current := some { cur with lines := cur.lines ++ [line] } }
        | none =>
          if trimSpace line != [] then { st with orphaned := st.orphaned ++ [line] }
          else st

/-- Embeds `GoTestStrategy.Filter` (non-panicking body). -/
def goTestFilter (raw : Str) (_command : Str) (_args : List Str)
    (exitCode : Int) : FResult :=
  let cleaned := stripANSI raw
  let hadTrailing := endsWithNewline cleaned
  let lines := splitLines cleaned
  let pkgCount := (lines.filter isGoPkgSummary).length
  if pkgCount ≤ 2 && lines.length < 10 then ⟨cleaned, false⟩
  else
    let st := lines.foldl goTestStep ⟨[], [], none, []⟩
    let st :=
      match st.current with
      | some cur =>
        if cur.failed then { st with failBlocks := st.failBlocks ++ [cur] } else st
      | none => st
    let out :=
      if exitCode == 0 then
        let passedPkgs := (st.summaryLines.filter (fun l =>
          startsWithList l "ok  \t".data || startsWithList l "?   \t".data)).length
        st.summaryLines
          ++ ["all tests passed (".data ++ natStr passedPkgs ++ " packages)".data]
      else
        (st.failBlocks.map GoTestBlock.lines).flatten ++ st.orphaned ++ st.summaryLines
    let filtered := ensureTrailingNewline (joinLines out) hadTrailing
    ⟨filtered, decide (filtered.length < cleaned.length)⟩

/-- Embeds `GoBuildStrategy.CanHandle`. -/
def goBuildCanHandle (command : Str) (args : List Str) : Bool :=
  command == "go".data &&
    (isSubcommand args "build".data goValueFlags
      || isSubcommand args "vet".data goValueFlags
      || isSubcommand args "install".data goValueFlags)

/-- Tail test for `goBuildErrorRe` after the `\S+` prefix:
`\.go:\d+:\d+:` at this position. -/
def goErrTail (t : Str) : Bool :=
  startsWithList t ".go:".data &&
    (let d1 := ((t.drop 4).takeWhile isDigitCh).length
     decide (1 ≤ d1) && startsWithList ((t.drop 4).drop d1) ":".data &&
       (let t2 := (t.drop 4).drop (d1 + 1)
        let d2 := (t2.takeWhile isDigitCh).length
        decide (1 ≤ d2) && startsWithList (t2.drop d2) ":".data))

/-- Embeds `goBuildErrorRe`: `^\S+\.go:\d+:\d+:` — after at least one non-space
character, some split point carries the `\.go:\d+:\d+:` tail. -/
def goBuildErrScan : Str → Bool
  | [] => false
  | c :: t => isNonSpaceRegex c && (goErrTail t || goBuildErrScan t)

/-- Embeds `GoBuildStrategy.Filter` (non-panicking body). -/
def goBuildFilter (raw : Str) (_command : Str) (_args : List Str)
    (exitCode : Int) : FResult :=
  let cleaned := stripANSI raw
  if exitCode == 0 then ⟨cleaned, false⟩
  else
    let hadTrailing := endsWithNewline cleaned
    let lines := splitLines cleaned
    let nonEmpty := lines.filter (fun l => trimSpace l != [])
    let kept := nonEmpty.filter (fun l =>
      startsWithList l "# ".data || goBuildErrScan l)
    if nonEmpty.length ≤ kept.length then ⟨cleaned, false⟩
    else ⟨ensureTrailingNewline (joinLines kept) hadTrailing, true⟩

/-! ## CargoTestStrategy and CargoBuildStrategy (`cargo.go`) -/

/-- Embeds `cargoValueFlags`. -/
def cargoValueFlags : List Str := ["--manifest-path".data, "--color".data]

/-- Embeds `CargoTestStrategy.CanHandle`. -/
def cargoTestCanHandle (command : Str) (args : List Str) : Bool :=
  command == "cargo".data && isSubcommand args "test".data cargoValueFlags

/-- Embeds `cargoTestRunningRe`: `^running \d+ tests?` (the optional `s` is not
needed for a match). -/
def isCargoRunning (l : Str) : Bool :=
  startsWithList l "running ".data &&
    (let d := ((l.drop 8).takeWhile isDigitCh).length
     decide (1 ≤ d) && startsWithList ((l.drop 8).drop d) " test".data)

/-- Embeds `cargoTestFailedRe`: `^test .+ FAILED$`. -/
def isCargoFailedLine (l : Str) : Bool :=
  startsWithList l "test ".data && endsWithList (l.drop 5) " FAILED".data
    && decide (13 ≤ l.length)

/-- Embeds `cargoTestPassedCountRe`: leftmost match of `(\d+) passed`, returning
the captured digit run. -/
def passedCountScan : Str → Option Str
  | [] => none
  | c :: t =>
    if isDigitCh c then
      let d := (c :: t).takeWhile isDigitCh
      if startsWithList ((c :: t).drop d.length) " passed".data then some d
      else passedCountScan t
    else passedCountScan t

/-- Embeds `countCargoTestsFromResult`. -/
def countCargoTestsFromResult (l : Str) : Nat :=
  match passedCountScan l with
  | some ds => digitsToNat ds
  | none => 0

/-- Success-path loop of `CargoTestStrategy.Filter`: kept lines and the
accumulated passed-count total. -/
def cargoTestSuccessScan : List Str → List Str × Nat
  | [] => ([], 0)
  | line :: rest =>
    let r := cargoTestSuccessScan rest
    if isCargoRunning line then (line :: r.1, r.2)
    else if startsWithList line "test result:".data then
      (line :: r.1, countCargoTestsFromResult line + r.2)
    else r

/-- Failure-path loop of `CargoTestStrategy.Filter` (`inFail` is the
`inFailuresSection` flag). -/
def cargoTestFailScan : List Str → Bool → List Str
  | [], _ => []
  | line :: rest, inFail =>
    if isCargoRunning line then line :: cargoTestFailScan rest inFail
    else if startsWithList line "failures:".data then line :: cargoTestFailScan rest true
    else if inFail then
      if startsWithList line "test result:".data then line :: cargoTestFailScan rest false
      else line :: cargoTestFailScan rest true
    else if startsWithList line "test result:".data then line :: cargoTestFailScan rest false
    else if isCargoFailedLine line then line :: cargoTestFailScan rest false
    else cargoTestFailScan rest false

/-- Embeds `CargoTestStrategy.Filter` (non-panicking body). -/
def cargoTestFilter (raw : Str) (_command : Str) (_args : List Str)
    (exitCode : Int) : FResult :=
  let cleaned := stripANSI raw
  let hadTrailing := endsWithNewline cleaned
  let lines := splitLines cleaned
  if lines.length < 10 then ⟨cleaned, false⟩
  else if exitCode == 0 then
    let r := cargoTestSuccessScan lines
    let kept := r.1 ++ ["all tests passed (".data ++ natStr r.2 ++ " total)".data]
    let filtered := ensureTrailingNewline (joinLines kept) hadTrailing
    ⟨filtered, decide (filtered.length < cleaned.length)⟩
  else
    let kept := cargoTestFailScan lines false
    let filtered := ensureTrailingNewline (joinLines kept) hadTrailing
    ⟨filtered, decide (filtered.length < cleaned.length)⟩

/-- Embeds `CargoBuildStrategy.CanHandle`. -/
def cargoBuildCanHandle (command : Str) (args : List Str) : Bool :=
  command == "cargo".data &&
    (isSubcommand args "build".data cargoValueFlags
      || isSubcommand args "check".data cargoValueFlags
      || isSubcommand args "clippy".data cargoValueFlags)

/-- Embeds `cargoBuildPipeRe`: `^\s*\d*\s*\|` (the three repetitions range over
pairwise-disjoint classes, so greedy consumption is exact). -/
def isCargoPipeLine (l : Str) : Bool :=
  startsWithList (((l.dropWhile isRegexSpace).dropWhile isDigitCh).dropWhile isRegexSpace)
    "|".data

/-- The kept-line test of `CargoBuildStrategy.Filter`. -/
def cargoBuildKeep (l : Str) : Bool :=
  startsWithList l "error[".data || startsWithList l "error:".data
    || startsWithList l "warning[".data || startsWithList l "warning:".data
    || startsWithList (l.dropWhile isRegexSpace) "-->".data
    || startsWithList l "aborting due to".data
    || startsWithList l "For more information".data
    || startsWithList l "= ".data
    || isCargoPipeLine l

/-- Embeds `CargoBuildStrategy.Filter` (non-panicking body). -/
def cargoBuildFilter (raw : Str) (_command : Str) (_args : List Str)
    (exitCode : Int) : FResult :=
  let cleaned := stripANSI raw
  if exitCode == 0 then ⟨cleaned, false⟩
  else
    let hadTrailing := endsWithNewline cleaned
    let lines := splitLines cleaned
    let nonEmpty := lines.filter (fun l => trimSpace l != [])
    let kept := nonEmpty.filter cargoBuildKeep
    if nonEmpty.length ≤ kept.length then ⟨cleaned, false⟩
    else ⟨ensureTrailingNewline (joinLines kept) hadTrailing, true⟩

/-! ## DockerBuildStrategy (`docker.go`) -/

/-- Embeds `dockerValueFlags`. -/
def dockerValueFlags : List Str :=
  ["-H".data, "--host".data, "--config".data, "--context".data,
   "-l".data, "--log-level".data]

/-- Embeds `dockerSubcmdValueFlags`. -/
def dockerSubcmdValueFlags (sub : Str) : List Str :=
  if sub == "buildx".data then ["--builder".data, "--platform".data]
  else if sub == "compose".data then
    ["-f".data, "--file".data, "-p".data, "--project-name".data, "--profile".data]
  else []

/-- Loop of `dockerSubcommands`: collects up to two positional arguments,
picking up subcommand-specific value flags after the first. -/
def dockerSubcommandsAux :
    List Str → List Str → List Str → Bool → List Str → List Str
  | [], _, _, _, positional => positional
  | a :: rest, vf, subVf, skip, positional =>
    if skip then dockerSubcommandsAux rest vf subVf false positional
    else if vf.contains a || subVf.contains a then
      dockerSubcommandsAux rest vf subVf true positional
    else if startsWithList a ['-'] then
      dockerSubcommandsAux rest vf subVf false positional
    else
      let positional := positional ++ [a]
      if positional.length == 2 then positional
      else
        let subVf := if positional.length == 1 then dockerSubcmdValueFlags a else subVf
        dockerSubcommandsAux rest vf subVf false positional

/-- Embeds `dockerSubcommands`: the first two non-flag positional arguments. -/
def dockerSubcommands (args : List Str) (valueFlags : List Str) : Str × Str :=
  let positional := dockerSubcommandsAux args valueFlags [] false []
  (positional.headD [], (positional.drop 1).headD [])

/-- Embeds `DockerBuildStrategy.CanHandle`. -/
def dockerBuildCanHandle (command : Str) (args : List Str) : Bool :=
  if command != "docker".data then false
  else if isSubcommand args "build".data dockerValueFlags then true
  else
    let fs := dockerSubcommands args dockerValueFlags
    (fs.1 == "buildx".data || fs.1 == "compose".data) && fs.2 == "build".data

/-- Embeds `dockerLegacyHashRe`: `^\s*---> [0-9a-f]`. -/
def isDockerLegacyHash (l : Str) : Bool :=
  let t := l.dropWhile isRegexSpace
  startsWithList t "---> ".data &&
    (match (t.drop 5).head? with
     | some c => isHexLower c
     | none => false)

/-- Embeds `dockerStepRe`: `^Step \d+/\d+`. -/
def isDockerStep (l : Str) : Bool :=
  startsWithList l "Step ".data &&
    (let d1 := ((l.drop 5).takeWhile isDigitCh).length
     decide (1 ≤ d1) && startsWithList ((l.drop 5).drop d1) "/".data &&
       decide (1 ≤ (((l.drop 5).drop (d1 + 1)).takeWhile isDigitCh).length))

/-- Embeds `dockerBuildKitLineRe`: `^#\d+`. -/
def isBuildKitLine (l : Str) : Bool :=
  startsWithList l "#".data && decide (1 ≤ ((l.drop 1).takeWhile isDigitCh).length)

/-- Embeds `dockerBuildKitSha256Re`: `^#\d+\s+sha256:`. -/
def isBuildKitSha256 (l : Str) : Bool :=
  startsWithList l "#".data &&
    (let d := ((l.drop 1).takeWhile isDigitCh).length
     decide (1 ≤ d) &&
       (let t := (l.drop 1).drop d
        let sp := (t.takeWhile isRegexSpace).length
        decide (1 ≤ sp) && startsWithList (t.drop sp) "sha256:".data))

/-- Unit alternative of `dockerBuildKitTransfRe` with its `\b`:
`(MB|KB|GB|B)\b` at this position. -/
def transfUnitAt (t : Str) : Bool :=
  (startsWithList t "MB".data && !isWordCharOpt (t.drop 2).head?)
    || (startsWithList t "KB".data && !isWordCharOpt (t.drop 2).head?)
    || (startsWithList t "GB".data && !isWordCharOpt (t.drop 2).head?)
    || (startsWithList t "B".data && !isWordCharOpt (t.drop 1).head?)

/-- Embeds `\d+(\.\d+)?\s*(MB|KB|GB|B)\b` anchored at this position (the digit
run and the optional fraction are deterministic; the optional group is
tried both ways, matching the regex's backtracking). -/
def transfAt (s : Str) : Bool :=
  let d := (s.takeWhile isDigitCh).length
  decide (1 ≤ d) &&
    (let t := s.drop d
     let afterFrac :=
       if startsWithList t ".".data && decide (1 ≤ ((t.drop 1).takeWhile isDigitCh).length) then
         some (t.drop (1 + ((t.drop 1).takeWhile isDigitCh).length))
       else none
     (match afterFrac with
      | some t2 => transfUnitAt (t2.dropWhile isRegexSpace)
      | none => false)
     || transfUnitAt (t.dropWhile isRegexSpace))

/-- Embeds `dockerBuildKitTransfRe` as an unanchored `MatchString`. -/
def containsTransf : Str → Bool
  | [] => false
  | c :: t => transfAt (c :: t) || containsTransf t

/-- Embeds `dockerErrorLineRe`: `(?i)\b(error|failed)\b`. -/
def isDockerErrorLine (l : Str) : Bool :=
  ciWord "error".data l || ciWord "failed".data l

/-- Success-path line decisions of `DockerBuildStrategy.filterSuccess`. -/
def dockerSuccessKeep (line : Str) : Bool :=
  if isDockerLegacyHash line then false
  else if startsWithList line "Removing intermediate container".data then false
  else if startsWithList line "Sending build context".data then false
  else if containsSub line "---> Using cache".data then false
  else if isDockerStep line || startsWithList line "Successfully built".data
      || startsWithList line "Successfully tagged".data
      || startsWithList line "COPY".data || startsWithList line "RUN".data
      || startsWithList line "FROM".data then true
  else if isBuildKitLine line then
    if isBuildKitSha256 line then false
    else if containsTransf line && !containsSub line "DONE".data
        && !containsSub line "ERROR".data && !containsSub line "CACHED".data then false
    else if containsSub line "DONE".data || containsSub line "ERROR".data
        || containsSub line "CACHED".data then true
    else false
  else true

/-- Embeds `DockerBuildStrategy.filterSuccess`. -/
def dockerFilterSuccess (lines : List Str) (cleaned : Str) (hadTrailing : Bool) :
    FResult :=
  let kept := lines.filter dockerSuccessKeep
  if lines.length ≤ kept.length then ⟨cleaned, false⟩
  else
    let filtered := ensureTrailingNewline (joinLines kept) hadTrailing
    ⟨filtered, decide (filtered.length < cleaned.length)⟩

/-- Embeds `DockerBuildStrategy.filterFailure`: union of pattern-matched lines and
the last 10 non-empty lines, in original order. -/
def dockerFilterFailure (lines : List Str) (cleaned : Str) (hadTrailing : Bool) :
    FResult :=
  let patternKept := fun (l : Str) =>
    isDockerErrorLine l || (isBuildKitLine l && containsSub l "ERROR".data)
      || startsWithList (l.dropWhile isRegexSpace) "-->".data
  let idx := (List.range lines.length).zip lines
  let nonEmptyIdx := (idx.filter (fun p => trimSpace p.2 != [])).map Prod.fst
  let lastNStart := if 10 < nonEmptyIdx.length then nonEmptyIdx.length - 10 else 0
  let lastNSet := nonEmptyIdx.drop lastNStart
  let kept := (idx.filter (fun p => patternKept p.2 || lastNSet.contains p.1)).map Prod.snd
  if lines.length ≤ kept.length then ⟨cleaned, false⟩
  else if kept.length == 0 then ⟨cleaned, false⟩
  else
    let filtered := ensureTrailingNewline (joinLines kept) hadTrailing
    ⟨filtered, decide (filtered.length < cleaned.length)⟩

/-- Embeds `DockerBuildStrategy.Filter` (non-panicking body). -/
def dockerBuildFilter (raw : Str) (_command : Str) (_args : List Str)
    (exitCode : Int) : FResult :=
  let cleaned := stripANSI raw
  let hadTrailing := endsWithNewline cleaned
  let lines := splitLines cleaned
  if lines.length < 15 then ⟨cleaned, false⟩
  else if exitCode == 0 then dockerFilterSuccess lines cleaned hadTrailing
  else dockerFilterFailure lines cleaned hadTrailing

/-! ## GrepGroupStrategy (`grep.go`) -/

/-- Embeds `GrepGroupStrategy.CanHandle`. -/
def grepGroupCanHandle (command : Str) (_args : List Str) : Bool :=
  command == "grep".data || command == "rg".data

/-- Embeds `grepBinaryFileRe`: `^Binary file .+ matches` — at least one character
between the prefix and a later ` matches`. -/
def isGrepBinaryNotice (l : Str) : Bool :=
  startsWithList l "Binary file ".data && containsSub (l.drop 13) " matches".data

/-- Embeds `grepFileLineRe`: `^(.+?):(\d+:)?(.*)$`.  The lazy `.+?` makes the
first capture the prefix before the first colon at index ≥ 1; only that
capture (`m[1]`, the filename) is used by the source. -/
def grepFileNameSub (l : Str) : Option Str :=
  match l with
  | [] => none
  | c :: t =>
    match indexOfSub t ":".data with
    | some i => some (c :: t.take i)
    | none => none

/-- Embeds `parseGroups`'s append-or-create on the in-order group list (the Go
`groupIndex` map plus `groups` slice). -/
def addToGroup : List (Str × List Str) → Str → Str → List (Str × List Str)
  | [], name, line => [(name, [line])]
  | (n, ls) :: rest, name, line =>
    if n == name then (n, ls ++ [line]) :: rest
    else (n, ls) :: addToGroup rest name line

/-- One iteration of `parseGroups`. -/
def grepParseStep (st : List (Str × List Str) × List Str) (line : Str) :
    List (Str × List Str) × List Str :=
  if trimSpace line == [] then st
  else if line == "--".data then st
  else if isGrepBinaryNotice line then (st.1, st.2 ++ [line])
  else
    match grepFileNameSub line with
    | some name => (addToGroup st.1 name line, st.2)
    | none => st

/-- Embeds `parseGroups`: file groups (first-seen order) and binary notices. -/
def grepParseGroups (lines : List Str) : List (Str × List Str) × List Str :=
  lines.foldl grepParseStep ([], [])

/-- Singular/plural choice used throughout the grep output builder. -/
def matchWord (n : Nat) : Str := if n == 1 then "match".data else "matches".data

/-- Output block for one file group (`NAME (COUNT match(es)):` plus
indented lines, truncated to first/last 3 with a `... K more` marker). -/
def grepGroupBlock (grp : Str × List Str) : List Str :=
  let count := grp.2.length
  let header := grp.1 ++ " (".data ++ natStr count ++ [' '] ++ matchWord count ++ "):".data
  if count ≤ 8 then header :: grp.2.map (fun l => "  ".data ++ l)
  else
    header :: ((grp.2.take 3).map (fun l => "  ".data ++ l)
      ++ ["  ... ".data ++ natStr (count - 6) ++ " more".data]
      ++ ((grp.2.drop (count - 3)).map (fun l => "  ".data ++ l)))

/-- Embeds `GrepGroupStrategy.Filter` (non-panicking body). -/
def grepGroupFilter (raw : Str) (_command : Str) (_args : List Str)
    (exitCode : Int) : FResult :=
  let cleaned := stripANSI raw
  let hadTrailing := endsWithNewline cleaned
  let lines := splitLines cleaned
  if lines.length < 10 then ⟨cleaned, false⟩
  else if exitCode != 0 then ⟨cleaned, false⟩
  else
    let gb := grepParseGroups lines
    if gb.1.length == 0 then ⟨cleaned, false⟩
    else
      let totalMatches := (gb.1.map (fun g => g.2.length)).sum
      let fileCount := gb.1.length
      let output := (gb.1.map grepGroupBlock).flatten ++ gb.2 ++ [[]]
        ++ [natStr totalMatches ++ [' '] ++ matchWord totalMatches
            ++ " across ".data ++ natStr fileCount ++ [' ']
            ++ (if fileCount == 1 then "file".data else "files".data)]
      let filtered := ensureTrailingNewline (joinLines output) hadTrailing
      ⟨filtered, decide (filtered.length < cleaned.length)⟩

/-! ## ProgressStripStrategy (`progress.go`) -/

/-- Embeds `progressCommands`. -/
def progressCommands (command : Str) : Option (List Str) :=
  if command == "npm".data then some ["install".data, "ci".data, "update".data]
  else if command == "yarn".data then some ["install".data, "add".data]
  else if command == "pip".data then some ["install".data]
  else if command == "pip3".data then some ["install".data]
  else if command == "docker".data then some ["pull".data, "push".data]
  else none

/-- Embeds `progressValueFlags`. -/
def progressValueFlags (command : Str) : List Str :=
  if command == "docker".data then
    ["--host".data, "-H".data, "--config".data, "--context".data, "-l".data, "--log-level".data]
  else if command == "npm".data then ["--prefix".data, "--registry".data, "--cache".data]
  else if command == "pip".data || command == "pip3".data then
    ["--target".data, "-t".data, "--prefix".data, "--root".data, "-i".data, "--index-url".data]
  else if command == "yarn".data then
    ["--cwd".data, "--modules-folder".data, "--cache-folder".data]
  else []

/-- Embeds `ProgressStripStrategy.CanHandle`. -/
def progressStripCanHandle (command : Str) (args : List Str) : Bool :=
  match progressCommands command with
  | none => false
  | some subs => subs.any (fun sub => isSubcommand args sub (progressValueFlags command))

/-- Embeds `progressBarRe`: `\[#+[=> ]*\]` anchored at this position. -/
def progressBarAt (s : Str) : Bool :=
  startsWithList s "[".data &&
    (let h := ((s.drop 1).takeWhile (· == '#')).length
     decide (1 ≤ h) &&
       (let t := (s.drop 1).drop h
        let e := (t.takeWhile (fun c => c == '=' || c == '>' || c == ' ')).length
        startsWithList (t.drop e) "]".data))

/-- Embeds `progressBarRe` as an unanchored `MatchString`. -/
def containsProgressBar : Str → Bool
  | [] => false
  | c :: t => progressBarAt (c :: t) || containsProgressBar t

/-- Embeds `progressPercentRe`: `\d+%` as an unanchored `MatchString`. -/
def containsPercent : Str → Bool
  | [] => false
  | c :: t =>
    (isDigitCh c && startsWithList ((c :: t).drop ((c :: t).takeWhile isDigitCh).length) "%".data)
      || containsPercent t

/-- Unit-with-`/s` alternative of `progressSpeedRe`. -/
def speedUnitAt (t : Str) : Bool :=
  startsWithList t "MB/s".data || startsWithList t "KB/s".data
    || startsWithList t "GB/s".data || startsWithList t "B/s".data

/-- Embeds `\d+(\.\d+)?\s*(MB|KB|GB|B)/s` anchored at this position. -/
def speedAt (s : Str) : Bool :=
  let d := (s.takeWhile isDigitCh).length
  decide (1 ≤ d) &&
    (let t := s.drop d
     let afterFrac :=
       if startsWithList t ".".data && decide (1 ≤ ((t.drop 1).takeWhile isDigitCh).length) then
         some (t.drop (1 + ((t.drop 1).takeWhile isDigitCh).length))
       else none
     (match afterFrac with
      | some t2 => speedUnitAt (t2.dropWhile isRegexSpace)
      | none => false)
     || speedUnitAt (t.dropWhile isRegexSpace))

/-- Embeds `progressSpeedRe` as an unanchored `MatchString`. -/
def containsSpeed : Str → Bool
  | [] => false
  | c :: t => speedAt (c :: t) || containsSpeed t

/-- Embeds `dockerLayerProgressRe`: `^[a-f0-9]+: (Downloading|Extracting|Pulling fs layer|Waiting|Verifying)`. -/
def isDockerLayerProgress (l : Str) : Bool :=
  let h := (l.takeWhile isHexLower).length
  decide (1 ≤ h) && startsWithList (l.drop h) ": ".data &&
    (let t := l.drop (h + 2)
     startsWithList t "Downloading".data || startsWithList t "Extracting".data
       || startsWithList t "Pulling fs layer".data || startsWithList t "Waiting".data
       || startsWithList t "Verifying".data)

/-- Embeds `dockerLayerCompleteRe`: `^[a-f0-9]+: (Pull complete|Already exists)`. -/
def isDockerLayerComplete (l : Str) : Bool :=
  let h := (l.takeWhile isHexLower).length
  decide (1 ≤ h) && startsWithList (l.drop h) ": ".data &&
    (let t := l.drop (h + 2)
     startsWithList t "Pull complete".data || startsWithList t "Already exists".data)

/-- Embeds `npmAddedRe`: `^added \d+ packages`. -/
def isNpmAdded (l : Str) : Bool :=
  startsWithList l "added ".data &&
    (let d := ((l.drop 6).takeWhile isDigitCh).length
     decide (1 ≤ d) && startsWithList ((l.drop 6).drop d) " packages".data)

/-- Embeds `npmSpinnerRe`: `^\s*[⠋⠙⠹⠸⠼⠴⠦⠧⠇⠏|/\\-]`. -/
def isNpmSpinner (l : Str) : Bool :=
  match (l.dropWhile isRegexSpace).head? with
  | some c => "⠋⠙⠹⠸⠼⠴⠦⠧⠇⠏".data.contains c || c == '|' || c == '/' || c == '\\' || c == '-'
  | none => false

/-- The carriage-return cleanup: keep only the content after the last `\r`
(`strings.LastIndex(line, "\r")`); also reports whether a `\r` was found. -/
def afterLastCR (line : Str) : Str × Bool :=
  if line.contains '\r' then ((line.reverse.takeWhile (fun c => !(c == '\r'))).reverse, true)
  else (line, false)

/-- Loop state of `ProgressStripStrategy.Filter`: kept lines, previous
kept line, and the `crCleaned` flag. -/
structure ProgressState where
  kept : List Str
  prevLine : Str
  crCleaned : Bool
deriving Repr

/-- One iteration of the `ProgressStripStrategy.Filter` loop. -/
def progressStep (st : ProgressState) (line0 : Str) : ProgressState :=
  let cr := afterLastCR line0
  let line := cr.1
  let st := if cr.2 then { st with crCleaned := true } else st
  if isDockerLayerProgress line then st
  else if isDockerLayerComplete line then
    if line != st.prevLine then { st with kept := st.kept ++ [line], prevLine := line }
    else st
  else if isNpmSpinner line then st
  else if startsWithList line "npm WARN".data || startsWithList line "npm ERR!".data
      || isNpmAdded line then
    if line != st.prevLine then { st with kept := st.kept ++ [line], prevLine := line }
    else st
  else if containsProgressBar line then st
  else if containsPercent line && containsSpeed line then st
  else if containsPercent line && ciWord "eta".data line then st
  else if line == st.prevLine then st
  else { st with kept := st.kept ++ [line], prevLine := line }

/-- Embeds `ProgressStripStrategy.Filter` (non-panicking body). -/
def progressStripFilter (raw : Str) (_command : Str) (_args : List Str)
    (_exitCode : Int) : FResult :=
  let cleaned := stripANSI raw
  let hadTrailing := endsWithNewline cleaned
  let lines := splitLines cleaned
  if lines.length < 10 then ⟨cleaned, false⟩
  else
    let st := lines.foldl progressStep ⟨[], [], false⟩
    if lines.length ≤ st.kept.length && !st.crCleaned then ⟨cleaned, false⟩
    else if lines.length ≤ st.kept.length then
      let filtered := ensureTrailingNewline (joinLines st.kept) hadTrailing
      ⟨filtered, decide (filtered.length < cleaned.length)⟩
    else
      let header := "Progress output stripped (".data
        ++ natStr (lines.length - st.kept.length) ++ " lines removed):".data
      ⟨ensureTrailingNewline (joinLines (header :: st.kept)) hadTrailing, true⟩

/-! ## GenericErrorStrategy (`generic.go`) -/

/-- Embeds `GenericErrorStrategy.CanHandle`: matches unconditionally. -/
def genericErrorCanHandle (_command : Str) (_args : List Str) : Bool := true

/-- Tail scanner for `\S+:\d+:` — after at least one non-space character,
`:\d+:` appears at some split point, all consumed characters non-space. -/
def fileLineScanTail : Str → Bool
  | [] => false
  | c :: t =>
    (c == ':' &&
      (let d := (t.takeWhile isDigitCh).length
       decide (1 ≤ d) && (t.drop d).head? == some ':'))
      || (isNonSpaceRegex c && fileLineScanTail t)

/-- Embeds `\S+:\d+:` as an unanchored `MatchString`. -/
def fileLineScan : Str → Bool
  | [] => false
  | c :: t => (isNonSpaceRegex c && fileLineScanTail t) || fileLineScan t

/-- Embeds `genericErrorPatterns` applied to one line (first match wins, but only
membership matters). -/
def genericLineMatches (l : Str) : Bool :=
  ciWord "error".data l || ciWord "erro".data l || ciWord "warning".data l
    || ciWord "warn".data l || ciWord "fatal".data l || ciWord "panic".data l
    || (match l.head? with
        | some c => (c == 'E' || c == 'W') && (l.drop 1).head? == some ' '
        | none => false)
    || fileLineScan l

/-- Embeds `GenericErrorStrategy.Filter` (non-panicking body). -/
def genericErrorFilter (raw : Str) (_command : Str) (_args : List Str)
    (exitCode : Int) : FResult :=
  let cleaned := stripANSI raw
  if exitCode == 0 then ⟨cleaned, false⟩
  else
    let hadTrailing := endsWithNewline cleaned
    let lines := splitLines cleaned
    let matched := lines.map genericLineMatches
    let matchCount := (matched.filter id).length
    let nonEmpty := (lines.filter (fun l => trimSpace l != [])).length
    if nonEmpty == 0 then ⟨cleaned, false⟩
    -- `float64(matchCount)/float64(nonEmpty) >= 0.3` agrees with the exact
    -- rational comparison for all counts below 10^15 (the gap between m/n
    -- and the float literal 0.3 always exceeds the rounding error).
    else if decide ((3 : Nat) * nonEmpty ≤ 10 * matchCount) then ⟨cleaned, false⟩
    else
      let included := (List.range lines.length).map (fun i =>
        matched.getD i false || (decide (1 ≤ i) && matched.getD (i - 1) false)
          || matched.getD (i + 1) false)
      let out := (((List.range lines.length).zip lines).filter
        (fun p => included.getD p.1 false)).map Prod.snd
      if out.length == 0 then ⟨cleaned, false⟩
      else
        let header := "Showing errors/warnings from ".data ++ natStr lines.length
          ++ " total lines:".data
        ⟨ensureTrailingNewline (joinLines (header :: out)) hadTrailing, true⟩

/-! ## PassthroughStrategy -/

/-- Embeds `PassthroughStrategy.Filter`. -/
def passthroughFilter (raw : Str) (_command : Str) (_args : List Str)
    (_exitCode : Int) : FResult :=
  ⟨raw, false⟩

/-! ## Strategy values and the registry (`filter.go`, `registry.go`) -/

/-- Embeds `filter.Strategy`: name, match predicate, reduction. -/
structure Strategy where
  name : Str
  canHandle : Str → List Str → Bool
  filter : Str → Str → List Str → Int → FResult

/-- Embeds `&GitStatusStrategy{}`. -/
def gitStatusStrategy : Strategy :=
  ⟨"git-status".data, gitStatusCanHandle, gitStatusFilter⟩

/-- Embeds `&GitDiffStrategy{}`. -/
def gitDiffStrategy : Strategy :=
  ⟨"git-diff".data, gitDiffCanHandle, gitDiffFilter⟩

/-- Embeds `&GitLogStrategy{}`. -/
def gitLogStrategy : Strategy :=
  ⟨"git-log".data, gitLogCanHandle, gitLogFilter⟩

/-- Embeds `&GoTestStrategy{}`. -/
def goTestStrategy : Strategy :=
  ⟨"go-test".data, goTestCanHandle, goTestFilter⟩

/-- Embeds `&GoBuildStrategy{}`. -/
def goBuildStrategy : Strategy :=
  ⟨"go-build".data, goBuildCanHandle, goBuildFilter⟩

/-- Embeds `&CargoTestStrategy{}`. -/
def cargoTestStrategy : Strategy :=
  ⟨"cargo-test".data, cargoTestCanHandle, cargoTestFilter⟩

/-- Embeds `&CargoBuildStrategy{}`. -/
def cargoBuildStrategy : Strategy :=
  ⟨"cargo-build".data, cargoBuildCanHandle, cargoBuildFilter⟩

/-- Embeds `&DockerBuildStrategy{}`. -/
def dockerBuildStrategy : Strategy :=
  ⟨"docker-build".data, dockerBuildCanHandle, dockerBuildFilter⟩

/-- Embeds `&GrepGroupStrategy{}`. -/
def grepGroupStrategy : Strategy :=
  ⟨"grep-group".data, grepGroupCanHandle, grepGroupFilter⟩

/-- Embeds `&ProgressStripStrategy{}`. -/
def progressStripStrategy : Strategy :=
  ⟨"progress-strip".data, progressStripCanHandle, progressStripFilter⟩

/-- Embeds `&GenericErrorStrategy{}`. -/
def genericErrorStrategy : Strategy :=
  ⟨"generic-error".data, genericErrorCanHandle, genericErrorFilter⟩

/-- Embeds `&PassthroughStrategy{}`. -/
def passthroughStrategy : Strategy :=
  ⟨"passthrough".data, fun _ _ => true, passthroughFilter⟩

/-- Embeds `filter.Registry`: ordered strategies plus the passthrough fallback. -/
structure Registry where
  strategies : List Strategy
  fallback : Strategy

/-- Embeds `filter.NewRegistry`. -/
def newRegistry (strategies : List Strategy) : Registry :=
  ⟨strategies, passthroughStrategy⟩

/-- Embeds `Registry.Find`: first strategy whose predicate accepts, else fallback. -/
def registryFind (r : Registry) (command : Str) (args : List Str) : Strategy :=
  match r.strategies.find? (fun s => s.canHandle command args) with
  | some s => s
  | none => r.fallback

/-- The strategy list of `filter.DefaultRegistry`. -/
def defaultStrategies : List Strategy :=
  [gitStatusStrategy, gitDiffStrategy, gitLogStrategy,
   goTestStrategy, goBuildStrategy,
   cargoTestStrategy, cargoBuildStrategy,
   dockerBuildStrategy,
   grepGroupStrategy,
   progressStripStrategy,
   genericErrorStrategy]

/-- Embeds `filter.DefaultRegistry`. -/
def defaultRegistry : Registry := newRegistry defaultStrategies

/-! ## Panic guards

Each strategy's `Filter` wraps its body in `defer { if r := recover(); ... }`.
`strategyRun name body raw ... panic?` models one call: if the body panics
(with rendered panic value `msg`), the handler runs; otherwise the body's
result is returned.  The second component is the list of lines the call
writes to standard error.  Every handler in the source writes
`coc: filter NAME recovered from panic: MSG` — except the one in
`GenericErrorStrategy.Filter`, which only sets the result. -/

/-- The stderr note written by the recover handlers that log. -/
def panicNote (name msg : Str) : Str :=
  "coc: filter ".data ++ name ++ " recovered from panic: ".data ++ msg

/-- A guarded filter call for a strategy whose recover handler logs
(`git-status`, `git-diff`, `git-log`, `go-test`, `go-build`, `cargo-test`,
`cargo-build`, `docker-build`, `grep-group`, `progress-strip`). -/
def guardedFilterLogged (name : Str)
    (body : Str → Str → List Str → Int → FResult)
    (raw command : Str) (args : List Str) (exitCode : Int) :
    Option Str → FResult × List Str
  | some msg => (⟨raw, false⟩, [panicNote name msg])
  | none => (body raw command args exitCode, [])

/-- The guarded filter call of `GenericErrorStrategy.Filter`, whose recover
handler sets the result but writes nothing to standard error. -/
def guardedFilterGeneric (raw command : Str) (args : List Str) (exitCode : Int) :
    Option Str → FResult × List Str
  | some _ => (⟨raw, false⟩, [])
  | none => (genericErrorFilter raw command args exitCode, [])

/-! ## Log-path slug (`internal/logpath/logpath.go`) -/

/-- Embeds `path/filepath.Base` for Unix paths. -/
def goBase (p : Str) : Str :=
  if p == [] then ".".data
  else
    let p1 := (p.reverse.dropWhile (· == '/')).reverse
    let p2 := (p1.reverse.takeWhile (fun c => !(c == '/'))).reverse
    if p2 == [] then "/".data else p2

/-- Embeds `strings.ToLower` (ASCII range; no non-ASCII case pair maps into the
slug-safe class, so the sanitised output is unaffected by the restriction). -/
def goToLowerChar (c : Char) : Char :=
  if 'A' ≤ c && c ≤ 'Z' then Char.ofNat (c.toNat + 32) else c

/-- The complement of `slugUnsafe`'s class `[^a-zA-Z0-9._-]`. -/
def isSlugSafe (c : Char) : Bool :=
  ('a' ≤ c && c ≤ 'z') || ('A' ≤ c && c ≤ 'Z') || ('0' ≤ c && c ≤ '9')
    || c == '.' || c == '_' || c == '-'

mutual

/-- Embeds `slugUnsafe.ReplaceAllString(s, "-")`: each maximal run of unsafe
characters becomes a single dash. -/
def replaceUnsafe : Str → Str
  | [] => []
  | c :: t => if isSlugSafe c then c :: replaceUnsafe t else '-' :: skipUnsafe t

/-- Continuation of `replaceUnsafe` inside an unsafe run. -/
def skipUnsafe : Str → Str
  | [] => []
  | c :: t => if isSlugSafe c then c :: replaceUnsafe t else skipUnsafe t

end

mutual

/-- Embeds `slugDashes.ReplaceAllString(s, "-")` (`-{2,}` → `-`): collapsing every
dash run to a single dash, which leaves one-dash runs unchanged and so
coincides with replacing only the runs of length ≥ 2. -/
def collapseDashes : Str → Str
  | [] => []
  | c :: t => if c == '-' then '-' :: skipDashes t else c :: collapseDashes t

/-- Continuation of `collapseDashes` inside a dash run. -/
def skipDashes : Str → Str
  | [] => []
  | c :: t => if c == '-' then skipDashes t else c :: collapseDashes t

end

/-- Embeds `strings.Trim(s, "-")`. -/
def trimDashes (s : Str) : Str :=
  ((s.dropWhile (· == '-')).reverse.dropWhile (· == '-')).reverse

/-- Embeds `logpath.sanitizeSlugPart`. -/
def sanitizeSlugPart (s : Str) : Str :=
  trimDashes (collapseDashes (replaceUnsafe (s.map goToLowerChar)))

/-- Embeds `strings.Join parts sep`. -/
def joinStrs (sep : Str) : List Str → Str
  | [] => []
  | [p] => p
  | p :: rest => p ++ sep ++ joinStrs sep rest

/-- The parts collected by `logpath.Slug`'s loop: the sanitised command
basename plus the sanitised basename of the first non-flag argument (the
loop breaks once two parts are collected). -/
def slugParts (command : Str) (args : List Str) : List Str :=
  [sanitizeSlugPart (goBase command)] ++
    (match args.find? (fun a => !startsWithList a ['-']) with
     | some a => [sanitizeSlugPart (goBase a)]
     | none => [])

/-- Embeds `logpath.Slug`'s final truncation: `if len(slug) > 64 { slug[:64] }`. -/
def truncate64 (slug : Str) : Str :=
  if decide (64 < slug.length) then slug.take 64 else slug

/-- Embeds `logpath.Slug`. -/
def logpathSlug (command : Str) (args : List Str) : Str :=
  truncate64 (joinStrs ['-'] (slugParts command args))

/-! ## The `hook` subcommand (`internal/cli`, `runHook`) -/

/-- The parsed fields of `hookInput` that `runHook` reads. -/
structure HookInput where
  toolName : Str
  command : Str
deriving DecidableEq, Repr

/-- The `hookOutput` JSON emitted by `runHook`. -/
structure HookOutput where
  hookEventName : Str
  permissionDecision : Str
  updatedCommand : Str
deriving DecidableEq, Repr

/-- Embeds `cocSupportedCommands`. -/
def cocSupportedCommands : List Str :=
  ["git".data, "go".data, "cargo".data, "docker".data, "grep".data,
   "rg".data, "npm".data, "pip".data, "pip3".data, "yarn".data]

/-- Embeds `containsShellOps` (naive substring matching, quoted operators
included — preserved from the source). -/
def containsShellOps (cmd : Str) : Bool :=
  containsSub cmd "|".data || containsSub cmd "&&".data || containsSub cmd "||".data
    || containsSub cmd ";".data || containsSub cmd "$(".data
    || containsSub cmd "\x60".data

/-- Embeds `extractFirstWord`: the first `strings.Fields` component ("" if none). -/
def extractFirstWord (cmd : Str) : Str :=
  (cmd.dropWhile goIsSpace).takeWhile (fun c => !goIsSpace c)

/-- Embeds `isSupportedCommand`. -/
def isSupportedCommand (cmd : Str) : Bool := cocSupportedCommands.contains cmd

/-- Embeds `runHook`: `none` input stands for a read or JSON-unmarshal failure;
the returned option is the rewrite written to standard output (`none` =
nothing emitted).  Every path in the Go function ends in `return nil`, so
the process exit status is 0 on all of them. -/
def runHook : Option HookInput → Option HookOutput
  | none => none
  | some input =>
    if input.toolName != "Bash".data then none
    else
      let command := trimSpace input.command
      if command == [] then none
      else if containsShellOps command then none
      else
        let firstWord := extractFirstWord command
        if firstWord == [] then none
        else if firstWord == "coc".data then none
        else if !isSupportedCommand firstWord then none
        else some ⟨"PreToolUse".data, "allow".data, "coc ".data ++ command⟩

/-! ## The execution supervisor (`internal/executor`, `Run`)

`Run` interacts with the operating system; the embedding makes the
environment's answers explicit as an `ExecEnv` record (log creation, pipe
creation, start, copy, wait, stdout write, unlink) and records the
supervisor's externally visible actions in a `RunTrace`.  The branch
structure follows the Go function line by line; the buffer length is in
characters (`stdoutBuf.Len()` counts bytes — equal on ASCII data, and the
threshold comparison is the only use). -/

/-- Outcome of `cmd.Start()`. -/
inductive StartOutcome
  | ok
  | notFound
  | otherError
deriving DecidableEq, Repr

/-- A non-nil `cmd.Wait()` error: an `*exec.ExitError` carrying the value
of `ExitCode()` and, when the child was signaled, the signal number — or
any other error. -/
inductive WaitErr
  | exitError (exitCode : Int) (signal : Option Nat)
  | other
deriving DecidableEq, Repr

/-- The environment's answers to one `Run` invocation. -/
structure ExecEnv where
  resolvedPath : Str
  logCreateOk : Bool
  stdoutPipeOk : Bool
  stderrPipeOk : Bool
  startOutcome : StartOutcome
  stdoutCopyErr : Bool
  stderrCopyErr : Bool
  waitResult : Option WaitErr
  stdoutData : Str
  stdoutWriteOk : Bool
  removeLogOk : Bool

/-- Embeds `executor.Config` (the registry handle is the embedded one). -/
structure ExecConfig where
  command : Str
  args : List Str
  logDir : Str
  noFilter : Bool
  noLog : Bool
  verbose : Bool
  registry : Registry

/-- Embeds `executor.Result`. -/
structure RunResult where
  exitCode : Int
  logPath : Str
deriving DecidableEq, Repr

/-- The observable outcome of a `Run` call: its return value plus the
externally visible log-file actions. -/
structure RunTrace where
  result : RunResult
  logCreated : Bool
  logClosed : Bool
  removeAttempted : Bool
  parentRemoveAttempted : Bool
  footerEmitted : Bool
deriving DecidableEq, Repr

/-- Embeds `executor.smallOutputThreshold`. -/
def smallOutputThreshold : Nat := 4096

/-- The strategy `Run` ends up using: the registry's choice, replaced by
pass-through when `NoFilter` or `NoLog` is set. -/
def runStrategy (cfg : ExecConfig) : Strategy :=
  let command := goBase cfg.command
  let strategy := registryFind cfg.registry command cfg.args
  if cfg.noFilter || cfg.noLog then passthroughStrategy else strategy

/-- The exit-code determination of `Run` step 10: `cmd.Wait()`'s error,
`ExitCode()`, and the `Signaled()` override. -/
def childExitCode : Option WaitErr → Int
  | none => 0
  | some (.exitError c sig) =>
    match sig with
    | some n => 128 + (n : Int)
    | none => c
  | some .other => 1

/-- Embeds `executor.Run`. -/
def runExec (cfg : ExecConfig) (env : ExecEnv) : RunTrace :=
  let command := goBase cfg.command
  let strategy := runStrategy cfg
  let logFilePath := if !cfg.noLog then env.resolvedPath else []
  let logCreated := !cfg.noLog && env.logCreateOk
  if !env.stdoutPipeOk then
    ⟨⟨1, []⟩, logCreated, logCreated, false, false, false⟩
  else if !env.stderrPipeOk then
    ⟨⟨1, []⟩, logCreated, logCreated, false, false, false⟩
  else
    match env.startOutcome with
    | .notFound => ⟨⟨127, []⟩, logCreated, logCreated, false, false, false⟩
    | .otherError => ⟨⟨1, []⟩, logCreated, logCreated, false, false, false⟩
    | .ok =>
      let exitCode := childExitCode env.waitResult
      let fres := strategy.filter env.stdoutData command cfg.args exitCode
      if !env.stdoutWriteOk then
        ⟨⟨exitCode, logFilePath⟩, logCreated, logCreated, false, false, false⟩
      else if logCreated && !fres.WasReduced
          && decide (env.stdoutData.length ≤ smallOutputThreshold) then
        ⟨⟨exitCode, []⟩, logCreated, true, true, env.removeLogOk, false⟩
      else
        ⟨⟨exitCode, logFilePath⟩, logCreated, logCreated, false, false,
          fres.WasReduced && logFilePath != []⟩

/-- The exit code `Run` returns, as a function of only the pipe, start and
wait outcomes (supporting the exit-code-taxonomy claim). -/
def exitCodeOf (env : ExecEnv) : Int :=
  if !env.stdoutPipeOk then 1
  else if !env.stderrPipeOk then 1
  else
    match env.startOutcome with
    | .notFound => 127
    | .otherError => 1
    | .ok => childExitCode env.waitResult

/-! ## Claim-side definitions and concrete instances -/

/-- Modelled from the claim (C6): the counts of tab-prefixed file lines
encountered while the tracked section is, respectively,
`Changes to be committed:`, `Changes not staged for commit:` and
`Untracked files:` (section headers switch the tracked section). -/
def claimSectionCounts : List Str → Str → Nat × Nat × Nat
  | [], _ => (0, 0, 0)
  | line :: rest, sect =>
    if startsWithList line "Changes to be committed:".data then
      claimSectionCounts rest "staged".data
    else if startsWithList line "Changes not staged for commit:".data then
      claimSectionCounts rest "unstaged".data
    else if startsWithList line "Untracked files:".data then
      claimSectionCounts rest "untracked".data
    else if startsWithList line ['\t'] then
      let r := claimSectionCounts rest sect
      (r.1 + (if sect == "staged".data then 1 else 0),
       r.2.1 + (if sect == "unstaged".data then 1 else 0),
       r.2.2 + (if sect == "untracked".data then 1 else 0))
    else claimSectionCounts rest sect

/-- Counterexample input for the ANSI-scrubber idempotence claim: removing
the inner `ESC [ C` sequence splices the remaining characters into a new
`ESC [ 0 m` sequence. -/
def exIdem : Str := [escChar, escChar, '[', 'C', '[', '0', 'm']

/-- Counterexample input for the small-input pass-through claim: three
go-test package-summary lines in four split lines, under the 10-line
small-input threshold the spec states for go-test. -/
def exGoPkgs : Str :=
  "ok  \tpkg1\t0.1s\nok  \tpkg2\t0.2s\n?   \tpkg3\t[no test files]\n".data

/-- Counterexample input for the clean-tree claim: the clean-tree sentinel
preceded by an ANSI color-reset sequence. -/
def exCleanAnsi : Str := [escChar, '[', '0', 'm'] ++ cleanTreeLit

/-- Counterexample input for the git-status summary claim: an OSC escape
sequence whose body swallows four newlines, so the raw input has five
lines but the scrubbed input has one. -/
def exOscLines : Str :=
  [escChar, ']'] ++ "a\nb\nc\nd\ne".data ++ [belChar] ++ "hi".data

/-- The spec's git-status happy-path scenario input. -/
def exStatusVerbose : Str :=
  ("On branch main\nYour branch is up to date with 'origin/main'.\n\n"
    ++ "Changes to be committed:\n  (use \"git restore --staged <file>...\" to unstage)\n"
    ++ "\tmodified:   a\n\tnew file:   b\n\n"
    ++ "Changes not staged for commit:\n  (use \"git add <file>...\" to update)\n"
    ++ "\tmodified:   c\n\nUntracked files:\n"
    ++ "  (use \"git add <file>...\" to include)\n\td\n\te\n").data

/-- Counterexample input for the hook claim: a supported command with a
leading space, so the rewritten command prepends `coc ` to the *trimmed*
command rather than to the original. -/
def exHookSpace : HookInput := ⟨"Bash".data, " git status".data⟩

/-- A concrete supervisor configuration (an unrecognised command, handled
by the generic-error strategy) for the supervisor claims. -/
def cfgEx : ExecConfig := ⟨"somecmd".data, [], [], false, false, false, defaultRegistry⟩

/-- A concrete environment: everything succeeds, the child exits 0 after
printing `hello\n`. -/
def envEx : ExecEnv :=
  ⟨"/tmp/coc/somecmd/20260101-000000-abcd.log".data, true, true, true,
   .ok, false, false, none, "hello\n".data, true, true⟩

/-! ## Helper lemmas -/

/-- Fuel is irrelevant to `stripANSIFuel` as long as it covers the length
of the input. -/
theorem stripANSIFuel_congr :
    ∀ (f g : Nat) (s : Str), s.length ≤ f → s.length ≤ g →
      stripANSIFuel f s = stripANSIFuel g s := by
  intro f
  induction f using Nat.strong_induction_on with
  | _ f ih =>
    intro g s hf hg
    match s with
    | [] => cases f <;> cases g <;> rfl
    | c :: rest =>
      match f, g with
      | f + 1, g + 1 =>
        simp only [List.length_cons] at hf hg
        simp only [stripANSIFuel]
        by_cases hc : (c == escChar) = true
        · simp only [hc, if_true]
          cases hm : matchEsc rest with
          | some n =>
            have hd : (rest.drop n).length ≤ rest.length := by
              simp [List.length_drop]
            exact ih f (by omega) g _ (by omega) (by omega)
          | none =>
            rw [ih f (by omega) g rest (by omega) (by omega)]
        · simp only [hc, Bool.false_eq_true, if_false]
          rw [ih f (by omega) g rest (by omega) (by omega)]

/-- Embeds `stripANSI` keeps a non-ESC head and recurses. -/
theorem stripANSI_cons_ne (c : Char) (t : Str) (h : ¬c = escChar) :
    stripANSI (c :: t) = c :: stripANSI t := by
  have hb : (c == escChar) = false := by
    simpa using h
  simp [stripANSI, stripANSIFuel, hb]

/-- ESC-free strings are fixed points of the scrubber. -/
theorem stripANSI_of_not_mem_esc : ∀ s : Str, escChar ∉ s → stripANSI s = s := by
  intro s
  induction s with
  | nil => intro _; rfl
  | cons c t ih =>
    intro h
    have hc : ¬c = escChar := fun he => h (by simp [he])
    have ht : escChar ∉ t := fun hm => h (by simp [hm])
    rw [stripANSI_cons_ne c t hc, ih ht]

/-- A string starting with `a :: p` cannot start with `b :: q` when
`a ≠ b`. -/
theorem startsWith_false_of_head_ne (l : Str) (a b : Char) (p q : Str)
    (hab : ¬a = b) (h : startsWithList l (a :: p) = true) :
    startsWithList l (b :: q) = false := by
  cases l with
  | nil => simp [startsWithList] at h
  | cons c t =>
    simp only [startsWithList, Bool.and_eq_true, beq_iff_eq] at h
    simp only [startsWithList, Bool.and_eq_false_iff, beq_eq_false_iff_ne]
    exact Or.inl (h.1 ▸ hab)

/-- Head-based prefix disjointness, via `head?`. -/
theorem startsWith_false_of_headOpt_ne (line p q : Str)
    (hp : startsWithList line p = true) (hne : p.head? ≠ q.head?)
    (hpn : p ≠ []) (hqn : q ≠ []) : startsWithList line q = false := by
  match p, q with
  | a :: p', b :: q' =>
    have hab : ¬a = b := by simpa using hne
    exact startsWith_false_of_head_ne line a b p' q' hab hp

/-- Characters of a matched prefix belong to the string. -/
theorem mem_of_startsWith (l p : Str) (h : startsWithList l p = true) :
    ∀ c ∈ p, c ∈ l := by
  induction p generalizing l with
  | nil => simp
  | cons a p' ih =>
    cases l with
    | nil => simp [startsWithList] at h
    | cons b t =>
      simp only [startsWithList, Bool.and_eq_true, beq_iff_eq] at h
      intro c hc
      rcases List.mem_cons.mp hc with rfl | hc'
      · exact h.1 ▸ List.mem_cons_self _ _
      · exact List.mem_cons_of_mem b (ih t h.2 c hc')

/-- Everything in an all-trimmed-away string is whitespace. -/
theorem all_space_of_trimSpace_nil (l : Str) (h : trimSpace l = []) :
    ∀ c ∈ l, goIsSpace c = true := by
  unfold trimSpace at h
  have h1 : (l.dropWhile goIsSpace).reverse.dropWhile goIsSpace = [] := by
    have := congrArg List.reverse h
    simpa using this
  have h2 : ∀ c ∈ (l.dropWhile goIsSpace).reverse, goIsSpace c = true :=
    List.dropWhile_eq_nil_iff.mp h1
  have h3 : ∀ c ∈ l.dropWhile goIsSpace, goIsSpace c = true := by
    intro c hc
    exact h2 c (List.mem_reverse.mpr hc)
  intro c hc
  rcases List.mem_append.mp
      ((List.takeWhile_append_dropWhile (p := goIsSpace) (l := l)) ▸ hc) with h4 | h4
  · exact List.mem_takeWhile_imp h4
  · exact h3 c h4

/-! ## C3 — ANSI scrubber idempotence -/

/-- C3 (counterexample): the ANSI scrubber is not idempotent.  On
`ESC ESC [ C [ 0 m`, one application removes `ESC [ C` and thereby splices
together `ESC [ 0 m`, which a second application removes. -/
theorem C3_counterexample :
    stripANSI (stripANSI exIdem) ≠ stripANSI exIdem := by decide

/-- C3 (amended): the scrubber fixes every ESC-free string, and is
idempotent on every input whose single scrub leaves no ESC character; full
idempotence fails (see the counterexample). -/
theorem C3_scrubber_idempotent_on_esc_free :
    (∀ s : Str, escChar ∉ s → stripANSI s = s) ∧
    (∀ s : Str, escChar ∉ stripANSI s → stripANSI (stripANSI s) = stripANSI s) :=
  ⟨stripANSI_of_not_mem_esc,
   fun s h => stripANSI_of_not_mem_esc (stripANSI s) h⟩

/-- C3 (witness): the amended theorem applied at `"abc"` and at an input
with one color escape. -/
theorem C3_scrubber_idempotent_witness :
    stripANSI "abc".data = "abc".data ∧
    stripANSI (stripANSI ([escChar] ++ "[0mhi".data)) =
      stripANSI ([escChar] ++ "[0mhi".data) :=
  ⟨C3_scrubber_idempotent_on_esc_free.1 "abc".data (by decide),
   C3_scrubber_idempotent_on_esc_free.2 ([escChar] ++ "[0mhi".data) (by decide)⟩

/-! ## C5 — git-status clean tree -/

/-- C5 (counterexample): on an input with an ANSI escape before the
clean-tree sentinel, the filter returns the *scrubbed* text, not the input
itself. -/
theorem C5_counterexample :
    containsSub exCleanAnsi cleanTreeLit = true ∧
    (gitStatusFilter exCleanAnsi "git".data ["status".data] 0).Filtered ≠ exCleanAnsi := by
  constructor
  · decide
  · decide

/-- C5 (amended): whenever the ANSI-scrubbed input contains the literal
`nothing to commit, working tree clean`, the git-status filter returns the
scrubbed input unchanged (equal to the input when it has no escape
sequences) with `was_reduced = false`. -/
theorem C5_clean_tree_passthrough (raw command : Str) (args : List Str)
    (exitCode : Int)
    (h : containsSub (stripANSI raw) cleanTreeLit = true) :
    gitStatusFilter raw command args exitCode = ⟨stripANSI raw, false⟩ := by
  simp [gitStatusFilter, h]

/-- C5 (witness): the amended theorem at the spec's own scenario input. -/
theorem C5_clean_tree_witness :
    gitStatusFilter "On branch main\nnothing to commit, working tree clean\n".data
        "git".data ["status".data] 0 =
      ⟨"On branch main\nnothing to commit, working tree clean\n".data, false⟩ := by
  have h := C5_clean_tree_passthrough
    "On branch main\nnothing to commit, working tree clean\n".data
    "git".data ["status".data] 0 (by decide)
  rw [h]
  decide

/-! ## C2 — panic safety -/

/-- C2 (counterexample): the generic-error strategy's recover handler
returns the degraded result but writes nothing to standard error. -/
theorem C2_counterexample :
    guardedFilterGeneric "x".data "c".data [] 1 (some "boom".data) =
      (⟨"x".data, false⟩, []) := by decide

/-- C2 (amended): for every strategy in the default registry, a panic in
the reduction body never propagates: the guarded call returns
`{filtered = raw, was_reduced = false}`; every strategy except the
generic-error one also records the incident on standard error, while the
generic-error handler records nothing. -/
theorem C2_panic_safety (raw command : Str) (args : List Str) (exitCode : Int)
    (msg : Str) :
    (guardedFilterLogged "git-status".data gitStatusFilter raw command args exitCode
        (some msg) = (⟨raw, false⟩, [panicNote "git-status".data msg])) ∧
    (guardedFilterLogged "git-diff".data gitDiffFilter raw command args exitCode
        (some msg) = (⟨raw, false⟩, [panicNote "git-diff".data msg])) ∧
    (guardedFilterLogged "git-log".data gitLogFilter raw command args exitCode
        (some msg) = (⟨raw, false⟩, [panicNote "git-log".data msg])) ∧
    (guardedFilterLogged "go-test".data goTestFilter raw command args exitCode
        (some msg) = (⟨raw, false⟩, [panicNote "go-test".data msg])) ∧
    (guardedFilterLogged "go-build".data goBuildFilter raw command args exitCode
        (some msg) = (⟨raw, false⟩, [panicNote "go-build".data msg])) ∧
    (guardedFilterLogged "cargo-test".data cargoTestFilter raw command args exitCode
        (some msg) = (⟨raw, false⟩, [panicNote "cargo-test".data msg])) ∧
    (guardedFilterLogged "cargo-build".data cargoBuildFilter raw command args exitCode
        (some msg) = (⟨raw, false⟩, [panicNote "cargo-build".data msg])) ∧
    (guardedFilterLogged "docker-build".data dockerBuildFilter raw command args exitCode
        (some msg) = (⟨raw, false⟩, [panicNote "docker-build".data msg])) ∧
    (guardedFilterLogged "grep-group".data grepGroupFilter raw command args exitCode
        (some msg) = (⟨raw, false⟩, [panicNote "grep-group".data msg])) ∧
    (guardedFilterLogged "progress-strip".data progressStripFilter raw command args exitCode
        (some msg) = (⟨raw, false⟩, [panicNote "progress-strip".data msg])) ∧
    (guardedFilterGeneric raw command args exitCode (some msg) =
        (⟨raw, false⟩, [])) := by
  refine ⟨rfl, rfl, rfl, rfl, rfl, rfl, rfl, rfl, rfl, rfl, rfl⟩

/-! ## C10 — the pass-through fallback is unreachable -/

/-- C10: for every command and argument list, `Find` on the default
registry returns a strategy whose name is not `passthrough` — the
generic-error strategy matches unconditionally and precedes the fallback. -/
theorem C10_default_find_never_passthrough (command : Str) (args : List Str) :
    (registryFind defaultRegistry command args).name ≠ "passthrough".data := by
  unfold registryFind
  cases h : defaultRegistry.strategies.find? (fun s => s.canHandle command args) with
  | some s =>
    have hmem := List.mem_of_find?_eq_some h
    simp only [defaultRegistry, newRegistry, defaultStrategies, List.mem_cons,
      List.mem_singleton, List.not_mem_nil, or_false] at hmem
    rcases hmem with h1 | h1 | h1 | h1 | h1 | h1 | h1 | h1 | h1 | h1 | h1 <;>
      subst h1 <;> decide
  | none =>
    exfalso
    have hg : genericErrorStrategy ∈ defaultRegistry.strategies := by
      simp [defaultRegistry, newRegistry, defaultStrategies]
    have := List.find?_eq_none.mp h genericErrorStrategy hg
    simp [genericErrorStrategy, genericErrorCanHandle] at this

/-! ## C8 — slug safety -/

/-- Characters produced by `replaceUnsafe`/`skipUnsafe` are slug-safe. -/
theorem mem_replaceUnsafe_safe :
    ∀ s : Str, (∀ c ∈ replaceUnsafe s, isSlugSafe c = true) ∧
      (∀ c ∈ skipUnsafe s, isSlugSafe c = true) := by
  intro s
  induction s with
  | nil => exact ⟨by simp [replaceUnsafe], by simp [skipUnsafe]⟩
  | cons a t ih =>
    constructor
    · intro c hc
      rw [replaceUnsafe] at hc
      by_cases ha : isSlugSafe a = true
      · rw [if_pos ha] at hc
        rcases List.mem_cons.mp hc with h | h
        · exact h ▸ ha
        · exact ih.1 c h
      · rw [if_neg ha] at hc
        rcases List.mem_cons.mp hc with h | h
        · subst h; decide
        · exact ih.2 c h
    · intro c hc
      rw [skipUnsafe] at hc
      by_cases ha : isSlugSafe a = true
      · rw [if_pos ha] at hc
        rcases List.mem_cons.mp hc with h | h
        · exact h ▸ ha
        · exact ih.1 c h
      · rw [if_neg ha] at hc
        exact ih.2 c hc

/-- Embeds `collapseDashes`/`skipDashes` only keep input characters or dashes. -/
theorem mem_collapseDashes :
    ∀ s : Str, (∀ c ∈ collapseDashes s, c ∈ s ∨ c = '-') ∧
      (∀ c ∈ skipDashes s, c ∈ s ∨ c = '-') := by
  intro s
  induction s with
  | nil => exact ⟨by simp [collapseDashes], by simp [skipDashes]⟩
  | cons a t ih =>
    constructor
    · intro c hc
      rw [collapseDashes] at hc
      by_cases ha : (a == '-') = true
      · rw [if_pos ha] at hc
        rcases List.mem_cons.mp hc with h | h
        · exact Or.inr h
        · rcases ih.2 c h with h1 | h1
          · exact Or.inl (List.mem_cons_of_mem a h1)
          · exact Or.inr h1
      · rw [if_neg ha] at hc
        rcases List.mem_cons.mp hc with h | h
        · exact Or.inl (h ▸ List.mem_cons_self a t)
        · rcases ih.1 c h with h1 | h1
          · exact Or.inl (List.mem_cons_of_mem a h1)
          · exact Or.inr h1
    · intro c hc
      rw [skipDashes] at hc
      by_cases ha : (a == '-') = true
      · rw [if_pos ha] at hc
        rcases ih.2 c hc with h1 | h1
        · exact Or.inl (List.mem_cons_of_mem a h1)
        · exact Or.inr h1
      · rw [if_neg ha] at hc
        rcases List.mem_cons.mp hc with h | h
        · exact Or.inl (h ▸ List.mem_cons_self a t)
        · rcases ih.1 c h with h1 | h1
          · exact Or.inl (List.mem_cons_of_mem a h1)
          · exact Or.inr h1

/-- Embeds `trimDashes` only keeps input characters. -/
theorem mem_trimDashes (s : Str) (c : Char) (h : c ∈ trimDashes s) : c ∈ s := by
  unfold trimDashes at h
  have h1 := List.mem_reverse.mp h
  have h2 := (List.dropWhile_sublist _).mem h1
  have h3 := List.mem_reverse.mp h2
  exact (List.dropWhile_sublist _).mem h3

/-- Every character of a sanitised slug part is slug-safe. -/
theorem mem_sanitize_safe (s : Str) (c : Char) (h : c ∈ sanitizeSlugPart s) :
    isSlugSafe c = true := by
  unfold sanitizeSlugPart at h
  have h1 := mem_trimDashes _ c h
  rcases (mem_collapseDashes _).1 c h1 with h2 | h2
  · exact (mem_replaceUnsafe_safe _).1 c h2
  · subst h2; decide

/-- Membership in a `joinStrs`: from one of the parts or the separator. -/
theorem mem_joinStrs (sep : Str) :
    ∀ parts : List Str, ∀ c ∈ joinStrs sep parts,
      (∃ p ∈ parts, c ∈ p) ∨ c ∈ sep := by
  intro parts
  induction parts with
  | nil => simp [joinStrs]
  | cons p rest ih =>
    intro c hc
    cases rest with
    | nil =>
      have hun : joinStrs sep [p] = p := rfl
      rw [hun] at hc
      exact Or.inl ⟨p, List.mem_cons_self p [], hc⟩
    | cons q rest' =>
      have hun : joinStrs sep (p :: q :: rest') = p ++ sep ++ joinStrs sep (q :: rest') :=
        rfl
      rw [hun] at hc
      rcases List.mem_append.mp hc with h | h
      · rcases List.mem_append.mp h with h1 | h1
        · exact Or.inl ⟨p, List.mem_cons_self _ _, h1⟩
        · exact Or.inr h1
      · rcases ih c h with ⟨r, hr, hcr⟩ | h1
        · exact Or.inl ⟨r, List.mem_cons_of_mem p hr, hcr⟩
        · exact Or.inr h1

/-- Slug-safe characters are never Go whitespace. -/
theorem slugSafe_not_space (c : Char) (h : isSlugSafe c = true) :
    goIsSpace c = false := by
  cases hs : goIsSpace c with
  | false => rfl
  | true =>
    exfalso
    unfold goIsSpace at hs
    simp only [Bool.or_eq_true, beq_iff_eq] at hs
    rcases hs with (((((((h1 | h1) | h1) | h1) | h1) | h1) | h1) | h1) <;>
      (subst h1; exact absurd h (by decide))

/-- Truncation only keeps input characters. -/
theorem mem_truncate64 (s : Str) (c : Char) (h : c ∈ truncate64 s) : c ∈ s := by
  unfold truncate64 at h
  by_cases hlen : decide (64 < s.length) = true
  · rw [if_pos hlen] at h
    exact (List.take_sublist _ _).mem h
  · rw [if_neg hlen] at h
    exact h

/-- Truncation bounds the length by 64. -/
theorem truncate64_length (s : Str) : (truncate64 s).length ≤ 64 := by
  unfold truncate64
  by_cases hlen : decide (64 < s.length) = true
  · rw [if_pos hlen]
    simp
  · rw [if_neg hlen]
    simp at hlen
    omega

/-- Every part collected by the slug loop is a sanitised slug part. -/
theorem mem_slugParts (command : Str) (args : List Str) (p : Str)
    (h : p ∈ slugParts command args) : ∃ s, p = sanitizeSlugPart s := by
  unfold slugParts at h
  rcases List.mem_append.mp h with h1 | h1
  · exact ⟨goBase command, (List.mem_singleton.mp h1)⟩
  · cases hfind : args.find? (fun a => !startsWithList a ['-']) with
    | some a =>
      rw [hfind] at h1
      exact ⟨goBase a, (List.mem_singleton.mp h1)⟩
    | none => rw [hfind] at h1; simp at h1

/-- Every character of the slug is slug-safe. -/
theorem mem_slug_safe (command : Str) (args : List Str) (c : Char)
    (h : c ∈ logpathSlug command args) : isSlugSafe c = true := by
  unfold logpathSlug at h
  have h1 := mem_truncate64 _ c h
  rcases mem_joinStrs ['-'] _ c h1 with ⟨p, hp, hcp⟩ | hsep
  · obtain ⟨s, rfl⟩ := mem_slugParts command args p hp
    exact mem_sanitize_safe s c hcp
  · rcases List.mem_singleton.mp hsep with rfl
    decide

/-- C8: the slug contains no `/`, no `\`, no whitespace, and has length at
most 64 (its characters are all ASCII-safe, so byte and character length
agree). -/
theorem C8_slug_safety (command : Str) (args : List Str) :
    (∀ c ∈ logpathSlug command args, isSlugSafe c = true) ∧
    '/' ∉ logpathSlug command args ∧
    '\\' ∉ logpathSlug command args ∧
    (∀ c ∈ logpathSlug command args, goIsSpace c = false) ∧
    (logpathSlug command args).length ≤ 64 := by
  refine ⟨mem_slug_safe command args, ?_, ?_, ?_, ?_⟩
  · intro h
    have := mem_slug_safe command args '/' h
    revert this; decide
  · intro h
    have := mem_slug_safe command args '\\' h
    revert this; decide
  · intro c hc
    exact slugSafe_not_space c (mem_slug_safe command args c hc)
  · exact truncate64_length _

/-- C8 (witness): slug safety instantiated at `git status`. -/
theorem C8_slug_safety_witness :
    '/' ∉ logpathSlug "git".data ["status".data] ∧
    '\\' ∉ logpathSlug "git".data ["status".data] ∧
    (logpathSlug "git".data ["status".data]).length ≤ 64 :=
  ⟨(C8_slug_safety "git".data ["status".data]).2.1,
   (C8_slug_safety "git".data ["status".data]).2.2.1,
   (C8_slug_safety "git".data ["status".data]).2.2.2.2⟩

/-! ## C9 — the hook subcommand -/

/-- C9 (counterexample): with a leading space in the incoming command, the
emitted rewrite prepends `coc ` to the *trimmed* command, not to the
original command as the claim states. -/
theorem C9_counterexample :
    runHook (some exHookSpace) =
      some ⟨"PreToolUse".data, "allow".data, "coc git status".data⟩ ∧
    "coc git status".data ≠ "coc ".data ++ exHookSpace.command := by
  constructor
  · decide
  · decide

/-- C9 (amended): the hook emits a rewrite exactly when the tool is `Bash`,
the trimmed command is non-empty, free of shell operators, and its first
whitespace-delimited word is a supported command other than `coc`; the
emitted rewrite is `PreToolUse`/`allow` with command `"coc " + trimmed
command`; on every other path (including read/parse failures) it emits
nothing.  (Every return path of the Go function is `return nil`, so the
process exits 0 in all cases.) -/
theorem C9_hook_rewrite :
    runHook none = none ∧
    ∀ i : HookInput,
      runHook (some i) =
        if i.toolName = "Bash".data ∧ trimSpace i.command ≠ [] ∧
            containsShellOps (trimSpace i.command) = false ∧
            extractFirstWord (trimSpace i.command) ≠ "coc".data ∧
            isSupportedCommand (extractFirstWord (trimSpace i.command)) = true
        then some ⟨"PreToolUse".data, "allow".data, "coc ".data ++ trimSpace i.command⟩
        else none := by
  refine ⟨rfl, ?_⟩
  intro i
  by_cases h1 : i.toolName = "Bash".data
  · by_cases h2 : trimSpace i.command = []
    · simp [runHook, bne_iff_ne, h1, h2]
    · by_cases h3 : containsShellOps (trimSpace i.command) = true
      · simp [runHook, bne_iff_ne, h1, h2, h3]
      · by_cases h5 : extractFirstWord (trimSpace i.command) = "coc".data
        · simp [runHook, bne_iff_ne, h1, h2, h3, h5]
        · by_cases h6 : isSupportedCommand (extractFirstWord (trimSpace i.command)) = true
          · have h4 : ¬extractFirstWord (trimSpace i.command) = [] := by
              intro h4; rw [h4] at h6; exact absurd h6 (by decide)
            simp [runHook, bne_iff_ne, h1, h2, h3, h4, h5, h6]
          · by_cases h4 : extractFirstWord (trimSpace i.command) = []
            · simp [runHook, bne_iff_ne, h1, h2, h3, h4, h5, h6,
                (by decide : isSupportedCommand [] = false)]
            · simp [runHook, bne_iff_ne, h1, h2, h3, h4, h5, h6]
  · simp [runHook, bne_iff_ne, h1]

/-! ## C4 — small-input pass-through -/

/-- C4 (counterexample): an ANSI-free go-test input of fewer than 10 lines
containing three package-summary lines is rewritten (summaries plus an
`all tests passed` line), so the universal small-input pass-through claim
fails for the go-test strategy at its stated 10-line threshold. -/
theorem C4_counterexample :
    stripANSI exGoPkgs = exGoPkgs ∧
    (splitLines exGoPkgs).length < 10 ∧
    (goTestFilter exGoPkgs "go".data ["test".data] 0).Filtered ≠ exGoPkgs := by
  refine ⟨by decide, by decide, by decide⟩

/-- C4 (amended): for every ANSI-free input, each strategy with a
line-count small-input gate passes the input through unchanged with
`was_reduced = false` at exit code 0 — git-status below 5 lines, git-diff
below 20, cargo-test below 10, docker-build below 15, grep-group below 10,
progress-strip below 10, and go-test below 10 lines *with at most two
package-summary lines*; go-build, cargo-build and generic-error pass every
ANSI-free input through at exit code 0, and git-log does so whenever no
line is a full `commit <40-hex>` header. -/
theorem C4_small_input_passthrough (raw command : Str) (args : List Str)
    (h : stripANSI raw = raw) :
    ((splitLines raw).length < 5 →
      gitStatusFilter raw command args 0 = ⟨raw, false⟩) ∧
    ((splitLines raw).length < 20 →
      gitDiffFilter raw command args 0 = ⟨raw, false⟩) ∧
    ((splitLines raw).length < 10 →
      ((splitLines raw).filter isGoPkgSummary).length ≤ 2 →
      goTestFilter raw command args 0 = ⟨raw, false⟩) ∧
    ((splitLines raw).length < 10 →
      cargoTestFilter raw command args 0 = ⟨raw, false⟩) ∧
    ((splitLines raw).length < 15 →
      dockerBuildFilter raw command args 0 = ⟨raw, false⟩) ∧
    ((splitLines raw).length < 10 →
      grepGroupFilter raw command args 0 = ⟨raw, false⟩) ∧
    ((splitLines raw).length < 10 →
      progressStripFilter raw command args 0 = ⟨raw, false⟩) ∧
    (goBuildFilter raw command args 0 = ⟨raw, false⟩) ∧
    (cargoBuildFilter raw command args 0 = ⟨raw, false⟩) ∧
    (genericErrorFilter raw command args 0 = ⟨raw, false⟩) ∧
    ((∀ l ∈ splitLines raw, commitHashSub l = none) →
      gitLogFilter raw command args 0 = ⟨raw, false⟩) := by
  refine ⟨?_, ?_, ?_, ?_, ?_, ?_, ?_, ?_, ?_, ?_, ?_⟩
  · intro hlen
    by_cases hc : containsSub raw cleanTreeLit = true
    · simp [gitStatusFilter, h, hc]
    · simp [gitStatusFilter, h, hc, hlen]
  · intro hlen
    simp [gitDiffFilter, h, hlen]
  · intro hlen hpkg
    simp [goTestFilter, h, hlen, hpkg]
  · intro hlen
    simp [cargoTestFilter, h, hlen]
  · intro hlen
    simp [dockerBuildFilter, h, hlen]
  · intro hlen
    simp [grepGroupFilter, h, hlen]
  · intro hlen
    simp [progressStripFilter, h, hlen]
  · simp [goBuildFilter, h]
  · simp [cargoBuildFilter, h]
  · simp [genericErrorFilter, h]
  · intro hnone
    have hany : (splitLines raw).any (fun l => (commitHashSub l).isSome) = false := by
      rw [List.any_eq_false]
      intro l hl
      simp [hnone l hl]
    simp [gitLogFilter, h, hany]

/-- C4 (witness): the amended theorem at the two-line input `a\nb\n`. -/
theorem C4_small_input_witness :
    gitStatusFilter "a\nb\n".data "x".data [] 0 = ⟨"a\nb\n".data, false⟩ ∧
    gitDiffFilter "a\nb\n".data "x".data [] 0 = ⟨"a\nb\n".data, false⟩ ∧
    goTestFilter "a\nb\n".data "x".data [] 0 = ⟨"a\nb\n".data, false⟩ ∧
    cargoTestFilter "a\nb\n".data "x".data [] 0 = ⟨"a\nb\n".data, false⟩ ∧
    dockerBuildFilter "a\nb\n".data "x".data [] 0 = ⟨"a\nb\n".data, false⟩ ∧
    grepGroupFilter "a\nb\n".data "x".data [] 0 = ⟨"a\nb\n".data, false⟩ ∧
    progressStripFilter "a\nb\n".data "x".data [] 0 = ⟨"a\nb\n".data, false⟩ ∧
    goBuildFilter "a\nb\n".data "x".data [] 0 = ⟨"a\nb\n".data, false⟩ ∧
    cargoBuildFilter "a\nb\n".data "x".data [] 0 = ⟨"a\nb\n".data, false⟩ ∧
    genericErrorFilter "a\nb\n".data "x".data [] 0 = ⟨"a\nb\n".data, false⟩ ∧
    gitLogFilter "a\nb\n".data "x".data [] 0 = ⟨"a\nb\n".data, false⟩ := by
  have H := C4_small_input_passthrough "a\nb\n".data "x".data [] (by decide)
  exact ⟨H.1 (by decide), H.2.1 (by decide), H.2.2.1 (by decide) (by decide),
    H.2.2.2.1 (by decide), H.2.2.2.2.1 (by decide), H.2.2.2.2.2.1 (by decide),
    H.2.2.2.2.2.2.1 (by decide), H.2.2.2.2.2.2.2.1, H.2.2.2.2.2.2.2.2.1,
    H.2.2.2.2.2.2.2.2.2.1, H.2.2.2.2.2.2.2.2.2.2 (by decide)⟩

/-! ## C1 — exit-code taxonomy, C7 — small-output cleanup -/

/-- The exit code returned by `Run` is a function of only the pipe, start
and wait outcomes. -/
theorem runExec_exitCode (cfg : ExecConfig) (env : ExecEnv) :
    (runExec cfg env).result.exitCode = exitCodeOf env := by
  obtain ⟨rp, lc, sop, sep, so, ce1, ce2, wr, sd, swo, rlo⟩ := env
  cases sop <;> cases sep <;> cases so <;>
    simp only [runExec, exitCodeOf, Bool.not_true, Bool.not_false] <;>
    first
      | rfl
      | (split <;> first
          | rfl
          | (split <;> first | rfl | (split <;> rfl)))

/-- C1: the supervisor's exit code is exactly the child's exit status on a
normal exit, `128 + N` when the child was terminated by signal `N`, `127`
when the command is not found, and `1` on any other startup failure
(including pipe creation); and it depends only on the pipe, start and wait
outcomes — no log-creation, copy-loop or cleanup failure alters it. -/
theorem C1_exit_code_taxonomy (cfg : ExecConfig) (env : ExecEnv) :
    (env.stdoutPipeOk = true → env.stderrPipeOk = true → env.startOutcome = .ok →
      ((env.waitResult = none → (runExec cfg env).result.exitCode = 0) ∧
       (∀ c : Int, env.waitResult = some (.exitError c none) →
          (runExec cfg env).result.exitCode = c) ∧
       (∀ (c : Int) (n : Nat), env.waitResult = some (.exitError c (some n)) →
          (runExec cfg env).result.exitCode = 128 + n))) ∧
    (env.stdoutPipeOk = true → env.stderrPipeOk = true →
      env.startOutcome = .notFound → (runExec cfg env).result.exitCode = 127) ∧
    (env.stdoutPipeOk = true → env.stderrPipeOk = true →
      env.startOutcome = .otherError → (runExec cfg env).result.exitCode = 1) ∧
    (env.stdoutPipeOk = false → (runExec cfg env).result.exitCode = 1) ∧
    (env.stdoutPipeOk = true → env.stderrPipeOk = false →
      (runExec cfg env).result.exitCode = 1) ∧
    (∀ env' : ExecEnv, env'.stdoutPipeOk = env.stdoutPipeOk →
      env'.stderrPipeOk = env.stderrPipeOk → env'.startOutcome = env.startOutcome →
      env'.waitResult = env.waitResult →
      (runExec cfg env').result.exitCode = (runExec cfg env).result.exitCode) := by
  refine ⟨?_, ?_, ?_, ?_, ?_, ?_⟩
  · intro h1 h2 h3
    refine ⟨?_, ?_, ?_⟩
    · intro hw
      rw [runExec_exitCode]
      simp [exitCodeOf, h1, h2, h3, hw, childExitCode]
    · intro c hw
      rw [runExec_exitCode]
      simp [exitCodeOf, h1, h2, h3, hw, childExitCode]
    · intro c n hw
      rw [runExec_exitCode]
      simp [exitCodeOf, h1, h2, h3, hw, childExitCode]
  · intro h1 h2 h3
    rw [runExec_exitCode]
    simp [exitCodeOf, h1, h2, h3]
  · intro h1 h2 h3
    rw [runExec_exitCode]
    simp [exitCodeOf, h1, h2, h3]
  · intro h1
    rw [runExec_exitCode]
    simp [exitCodeOf, h1]
  · intro h1 h2
    rw [runExec_exitCode]
    simp [exitCodeOf, h1, h2]
  · intro env' e1 e2 e3 e4
    rw [runExec_exitCode, runExec_exitCode]
    simp [exitCodeOf, e1, e2, e3, e4]

/-- C1 (witness): the taxonomy at concrete environments — exit status 3,
signal 2 (`130`), command not found (`127`), and a generic startup
failure (`1`). -/
theorem C1_exit_code_taxonomy_witness :
    (runExec cfgEx { envEx with waitResult := some (.exitError 3 none) }).result.exitCode = 3 ∧
    (runExec cfgEx { envEx with waitResult := some (.exitError (-1) (some 2)) }).result.exitCode = 130 ∧
    (runExec cfgEx { envEx with startOutcome := .notFound }).result.exitCode = 127 ∧
    (runExec cfgEx { envEx with startOutcome := .otherError }).result.exitCode = 1 := by
  refine ⟨?_, ?_, ?_, ?_⟩
  · exact ((C1_exit_code_taxonomy cfgEx
      { envEx with waitResult := some (.exitError 3 none) }).1 rfl rfl rfl).2.1 3 rfl
  · have h := ((C1_exit_code_taxonomy cfgEx
      { envEx with waitResult := some (.exitError (-1) (some 2)) }).1 rfl rfl rfl).2.2
      (-1) 2 rfl
    rw [h]
    decide
  · exact (C1_exit_code_taxonomy cfgEx
      { envEx with startOutcome := .notFound }).2.1 rfl rfl rfl
  · exact (C1_exit_code_taxonomy cfgEx
      { envEx with startOutcome := .otherError }).2.2.1 rfl rfl rfl

/-- C7 (counterexample): when writing the filtered output to standard
output fails, `Run` returns early: the log was created, the result was not
reduced and the buffer is six bytes, yet the log is not unlinked and the
reported log path is not cleared. -/
theorem C7_counterexample :
    ((runStrategy cfgEx).filter envEx.stdoutData (goBase cfgEx.command) cfgEx.args
        (childExitCode envEx.waitResult)).WasReduced = false ∧
    envEx.stdoutData.length ≤ smallOutputThreshold ∧
    runExec cfgEx { envEx with stdoutWriteOk := false } =
      ⟨⟨0, "/tmp/coc/somecmd/20260101-000000-abcd.log".data⟩,
        true, true, false, false, false⟩ := by
  refine ⟨by decide, by decide, by decide⟩

/-- C7 (amended): in a run where the log file was created, the child
started, the filtered output was written to standard output successfully,
the filter result was not reduced, and the accumulated buffer is at most
4096 bytes, the supervisor closes the log, attempts the unlink,
attempts the parent-directory removal when the unlink succeeded, and
clears the reported log path. -/
theorem C7_small_output_cleanup (cfg : ExecConfig) (env : ExecEnv)
    (h1 : cfg.noLog = false) (h2 : env.logCreateOk = true)
    (h3 : env.stdoutPipeOk = true) (h4 : env.stderrPipeOk = true)
    (h5 : env.startOutcome = .ok) (h6 : env.stdoutWriteOk = true)
    (h7 : ((runStrategy cfg).filter env.stdoutData (goBase cfg.command) cfg.args
        (childExitCode env.waitResult)).WasReduced = false)
    (h8 : env.stdoutData.length ≤ smallOutputThreshold) :
    runExec cfg env =
      ⟨⟨childExitCode env.waitResult, []⟩, true, true, true, env.removeLogOk, false⟩ := by
  obtain ⟨rp, lc, sop, sep, so, ce1, ce2, wr, sd, swo, rlo⟩ := env
  simp only at h2 h3 h4 h5 h6 h7 h8
  subst h2 h3 h4 h5 h6
  simp [runExec, h1, h7, h8]

/-- C7 (witness): the amended cleanup theorem at the concrete
`hello\n` run. -/
theorem C7_small_output_cleanup_witness :
    runExec cfgEx envEx = ⟨⟨0, []⟩, true, true, true, true, false⟩ := by
  have h := C7_small_output_cleanup cfgEx envEx rfl rfl rfl rfl rfl rfl
    (by decide) (by decide)
  rw [h]
  rfl

/-! ## C6 — git-status summary structure -/

/-- Embeds `replaceOnce` keeps a head that does not begin the pattern. -/
theorem replaceOnce_cons_ne (t : Str) (a p : Char) (ps sub : Str) (hne : ¬(a == p) = true) :
    replaceOnce (a :: t) (p :: ps) sub = a :: replaceOnce t (p :: ps) sub := by
  have hsw : startsWithList (a :: t) (p :: ps) = false := by
    simp [startsWithList, hne]
  conv_lhs => rw [replaceOnce]
  rw [hsw]
  simp

/-- Marker conversion keeps the leading tab (no replacement pattern starts
with a tab). -/
theorem convertStatus_tab (line : Str) (h : startsWithList line ['\t'] = true) :
    startsWithList (convertStatus line) ['\t'] = true := by
  cases line with
  | nil => simp [startsWithList] at h
  | cons c t =>
    have hc : c = '\t' := by
      simpa [startsWithList] using h
    subst hc
    unfold convertStatus
    cases hfind : statusReplacements.find? (fun r => containsSub ('\t' :: t) r.1) with
    | none => simp [startsWithList]
    | some r =>
      have hmem := List.mem_of_find?_eq_some hfind
      simp only [statusReplacements, List.mem_cons, List.not_mem_nil, or_false] at hmem
      rcases hmem with h1 | h1 | h1 | h1 | h1 | h1 <;> subst h1 <;> dsimp only <;>
        rw [replaceOnce_cons_ne _ _ _ _ _ (by decide)] <;> simp [startsWithList]
end Coc
namespace Coc

/-- The counters of the git-status loop agree with the claim-side counts
of tab-prefixed lines per tracked section. -/
theorem gitStatusScan_counts : ∀ (ls : List Str) (sect : Str),
    (gitStatusScan ls sect).2 = claimSectionCounts ls sect := by
  intro ls
  induction ls with
  | nil => intro sect; rfl
  | cons line rest ih =>
    intro sect
    by_cases hb1 : (startsWithList line "On branch ".data
        || startsWithList line "HEAD detached at ".data
        || startsWithList line "HEAD detached from ".data) = true
    · have hb2 : startsWithList line "Changes to be committed:".data = false := by
        rcases Bool.or_eq_true _ _ |>.mp hb1 with h | h
        · rcases Bool.or_eq_true _ _ |>.mp h with h' | h'
          · exact startsWith_false_of_headOpt_ne line _ _ h' (by decide) (by decide) (by decide)
          · exact startsWith_false_of_headOpt_ne line _ _ h' (by decide) (by decide) (by decide)
        · exact startsWith_false_of_headOpt_ne line _ _ h (by decide) (by decide) (by decide)
      have hb3 : startsWithList line "Changes not staged for commit:".data = false := by
        rcases Bool.or_eq_true _ _ |>.mp hb1 with h | h
        · rcases Bool.or_eq_true _ _ |>.mp h with h' | h'
          · exact startsWith_false_of_headOpt_ne line _ _ h' (by decide) (by decide) (by decide)
          · exact startsWith_false_of_headOpt_ne line _ _ h' (by decide) (by decide) (by decide)
        · exact startsWith_false_of_headOpt_ne line _ _ h (by decide) (by decide) (by decide)
      have hb4 : startsWithList line "Untracked files:".data = false := by
        rcases Bool.or_eq_true _ _ |>.mp hb1 with h | h
        · rcases Bool.or_eq_true _ _ |>.mp h with h' | h'
          · exact startsWith_false_of_headOpt_ne line _ _ h' (by decide) (by decide) (by decide)
          · exact startsWith_false_of_headOpt_ne line _ _ h' (by decide) (by decide) (by decide)
        · exact startsWith_false_of_headOpt_ne line _ _ h (by decide) (by decide) (by decide)
      have hb6 : startsWithList line ['\t'] = false := by
        rcases Bool.or_eq_true _ _ |>.mp hb1 with h | h
        · rcases Bool.or_eq_true _ _ |>.mp h with h' | h'
          · exact startsWith_false_of_headOpt_ne line _ _ h' (by decide) (by decide) (by decide)
          · exact startsWith_false_of_headOpt_ne line _ _ h' (by decide) (by decide) (by decide)
        · exact startsWith_false_of_headOpt_ne line _ _ h (by decide) (by decide) (by decide)
      simp [gitStatusScan, claimSectionCounts, hb1, hb2, hb3, hb4, hb6, ih]
    · by_cases hb2 : startsWithList line "Changes to be committed:".data = true
      · simp [gitStatusScan, claimSectionCounts, hb1, hb2, ih]
      · by_cases hb3 : startsWithList line "Changes not staged for commit:".data = true
        · simp [gitStatusScan, claimSectionCounts, hb1, hb2, hb3, ih]
        · by_cases hb4 : startsWithList line "Untracked files:".data = true
          · simp [gitStatusScan, claimSectionCounts, hb1, hb2, hb3, hb4, ih]
          · by_cases hb5 : startsWithList line useGitLit = true
            · have hb6 : startsWithList line ['\t'] = false :=
                startsWith_false_of_headOpt_ne line _ _ hb5 (by decide) (by decide) (by decide)
              simp [gitStatusScan, claimSectionCounts, hb1, hb2, hb3, hb4, hb5, hb6, ih]
            · by_cases hb6 : startsWithList line ['\t'] = true
              · simp [gitStatusScan, claimSectionCounts, hb1, hb2, hb3, hb4, hb5, hb6, ih]
              · by_cases hb7 : (trimSpace line == []) = true
                · simp [gitStatusScan, claimSectionCounts, hb1, hb2, hb3, hb4, hb5, hb6, hb7, ih]
                · simp [gitStatusScan, claimSectionCounts, hb1, hb2, hb3, hb4, hb5, hb6, hb7, ih]

/-- No line kept by the git-status loop starts with `  (use "git`. -/
theorem gitStatusScan_no_useGit : ∀ (ls : List Str) (sect : Str),
    ∀ l ∈ (gitStatusScan ls sect).1, startsWithList l useGitLit = false := by
  intro ls
  induction ls with
  | nil => intro sect l hl; simp [gitStatusScan] at hl
  | cons line rest ih =>
    intro sect
    by_cases hb1 : (startsWithList line "On branch ".data
        || startsWithList line "HEAD detached at ".data
        || startsWithList line "HEAD detached from ".data) = true
    · have hline : startsWithList line useGitLit = false := by
        rcases Bool.or_eq_true _ _ |>.mp hb1 with h | h
        · rcases Bool.or_eq_true _ _ |>.mp h with h' | h'
          · exact startsWith_false_of_headOpt_ne line _ _ h' (by decide) (by decide) (by decide)
          · exact startsWith_false_of_headOpt_ne line _ _ h' (by decide) (by decide) (by decide)
        · exact startsWith_false_of_headOpt_ne line _ _ h (by decide) (by decide) (by decide)
      intro l hl
      simp only [gitStatusScan, hb1, if_true] at hl
      rcases List.mem_cons.mp hl with heq | hl'
      · rw [heq]; exact hline
      · exact ih sect l hl'
    · by_cases hb2 : startsWithList line "Changes to be committed:".data = true
      · intro l hl
        simp only [gitStatusScan, hb1, hb2, Bool.false_eq_true, if_false, if_true] at hl
        rcases List.mem_cons.mp hl with heq | hl'
        · rw [heq]
          exact startsWith_false_of_headOpt_ne line _ _ hb2 (by decide) (by decide) (by decide)
        · exact ih _ l hl'
      · by_cases hb3 : startsWithList line "Changes not staged for commit:".data = true
        · intro l hl
          simp only [gitStatusScan, hb1, hb2, hb3, Bool.false_eq_true, if_false, if_true] at hl
          rcases List.mem_cons.mp hl with heq | hl'
          · rw [heq]
            exact startsWith_false_of_headOpt_ne line _ _ hb3 (by decide) (by decide) (by decide)
          · exact ih _ l hl'
        · by_cases hb4 : startsWithList line "Untracked files:".data = true
          · intro l hl
            simp only [gitStatusScan, hb1, hb2, hb3, hb4, Bool.false_eq_true, if_false, if_true] at hl
            rcases List.mem_cons.mp hl with heq | hl'
            · rw [heq]
              exact startsWith_false_of_headOpt_ne line _ _ hb4 (by decide) (by decide) (by decide)
            · exact ih _ l hl'
          · by_cases hb5 : startsWithList line useGitLit = true
            · intro l hl
              simp only [gitStatusScan, hb1, hb2, hb3, hb4, hb5, Bool.false_eq_true, if_false, if_true] at hl
              exact ih sect l hl
            · by_cases hb6 : startsWithList line ['\t'] = true
              · intro l hl
                simp only [gitStatusScan, hb1, hb2, hb3, hb4, hb5, hb6, Bool.false_eq_true, if_false, if_true] at hl
                rcases List.mem_cons.mp hl with heq | hl'
                · rw [heq]
                  exact startsWith_false_of_headOpt_ne (convertStatus line) _ _
                    (convertStatus_tab line hb6) (by decide) (by decide) (by decide)
                · exact ih sect l hl'
              · by_cases hb7 : (trimSpace line == []) = true
                · intro l hl
                  simp only [gitStatusScan, hb1, hb2, hb3, hb4, hb5, hb6, hb7, Bool.false_eq_true, if_false, if_true] at hl
                  rcases List.mem_cons.mp hl with heq | hl'
                  · rw [heq]
                    cases hsw : startsWithList line useGitLit with
                    | false => rfl
                    | true =>
                      exfalso
                      have hmem : '(' ∈ line :=
                        mem_of_startsWith line useGitLit hsw '(' (by decide)
                      have hsp := all_space_of_trimSpace_nil line (by simpa using hb7) '(' hmem
                      exact absurd hsp (by decide)
                  · exact ih sect l hl'
                · intro l hl
                  simp only [gitStatusScan, hb1, hb2, hb3, hb4, hb5, hb6, hb7, Bool.false_eq_true, if_false] at hl
                  exact ih sect l hl

/-- C6 (counterexample): an OSC escape sequence swallowing four newlines
gives a raw input of five lines without the clean-tree sentinel on which
the filter nevertheless passes through with `was_reduced = false` (the
scrubbed input is a single line), contradicting the claim read on the raw
input. -/
theorem C6_counterexample :
    5 ≤ (splitLines exOscLines).length ∧
    containsSub exOscLines cleanTreeLit = false ∧
    gitStatusFilter exOscLines "git".data ["status".data] 0 = ⟨"hi".data, false⟩ := by
  refine ⟨by decide, by decide, by decide⟩

/-- C6 (amended): for every input whose ANSI-scrubbed text has at least 5
lines and no clean-tree sentinel, the git-status filter returns, with
`was_reduced = true`, the kept lines followed by a final summary line
`N staged, M unstaged, K untracked` where N, M, K count the tab-prefixed
lines of the scrubbed input per tracked section, and no kept line starts
with `  (use "git`. -/
theorem C6_git_status_summary (raw command : Str) (args : List Str) (exitCode : Int)
    (h1 : containsSub (stripANSI raw) cleanTreeLit = false)
    (h2 : 5 ≤ (splitLines (stripANSI raw)).length) :
    gitStatusFilter raw command args exitCode =
      ⟨ensureTrailingNewline
        (joinLines ((gitStatusScan (splitLines (stripANSI raw)) []).1 ++
          [gitStatusSummary
            (claimSectionCounts (splitLines (stripANSI raw)) []).1
            (claimSectionCounts (splitLines (stripANSI raw)) []).2.1
            (claimSectionCounts (splitLines (stripANSI raw)) []).2.2]))
        (endsWithNewline (stripANSI raw)), true⟩ ∧
    ∀ l ∈ (gitStatusScan (splitLines (stripANSI raw)) []).1,
      startsWithList l useGitLit = false := by
  constructor
  · have hlen : ¬(splitLines (stripANSI raw)).length < 5 := by omega
    simp [gitStatusFilter, h1, hlen, gitStatusScan_counts]
  · exact gitStatusScan_no_useGit _ _

/-- C6 (witness): the amended theorem at the spec's verbose-status
scenario input (whose claim-side counts are 2 staged, 1 unstaged,
2 untracked). -/
theorem C6_git_status_summary_witness :
    gitStatusFilter exStatusVerbose "git".data ["status".data] 0 =
      ⟨ensureTrailingNewline
        (joinLines ((gitStatusScan (splitLines (stripANSI exStatusVerbose)) []).1 ++
          [gitStatusSummary
            (claimSectionCounts (splitLines (stripANSI exStatusVerbose)) []).1
            (claimSectionCounts (splitLines (stripANSI exStatusVerbose)) []).2.1
            (claimSectionCounts (splitLines (stripANSI exStatusVerbose)) []).2.2]))
        (endsWithNewline (stripANSI exStatusVerbose)), true⟩ :=
  (C6_git_status_summary exStatusVerbose "git".data ["status".data] 0
    (by decide) (by decide)).1

end Coc
